import Mathlib

/-!
# The WebGPU backend of the Futhark C runtime (`rts/c/backends/webgpu.h`)

A shallow embedding of the backend: the synchronous wrappers around the
callback-driven WebGPU calls, context setup, the scalar and bulk transfers,
the device-side copy, allocation and release, and the kernel stubs.

The WebGPU API itself and the runtime's `futhark_panic` are not part of the
file; they are modelled below as a small machine (`World`): a table of device
buffers, the FIFO queue of submitted commands, the completion callbacks the
API still owes, the hosting scheduler, and the memory cells the wrappers use
for their wait handles.
-/

namespace WebGPUBackend

/-! ## Values -/

/-- One `unsigned char`. -/
abbrev Byte := Fin 256

/-- Modelled from the spec: the success sentinel of the return convention, "a
zero/success sentinel on success"; the macro is defined outside
`backends/webgpu.h`. -/
def FUTHARK_SUCCESS : Int := 0

/-- The null pointer. -/
def NULL : Nat := 0

/-- Success value of `WGPUBufferMapAsyncStatus` (WebGPU C header); every other
value is a failure code. -/
def WGPUBufferMapAsyncStatus_Success : Int := 0

/-- Success value of `WGPURequestAdapterStatus` (WebGPU C header). -/
def WGPURequestAdapterStatus_Success : Int := 0

/-- Success value of `WGPURequestDeviceStatus` (WebGPU C header). -/
def WGPURequestDeviceStatus_Success : Int := 0

/-- Buffer usage bit `MapRead` (WebGPU C header). -/
def WGPUBufferUsage_MapRead : Nat := 1

/-- Buffer usage bit `CopySrc` (WebGPU C header). -/
def WGPUBufferUsage_CopySrc : Nat := 4

/-- Buffer usage bit `CopyDst` (WebGPU C header). -/
def WGPUBufferUsage_CopyDst : Nat := 8

/-- Buffer usage bit `Storage` (WebGPU C header). -/
def WGPUBufferUsage_Storage : Nat := 128

/-- Map mode `Read` (WebGPU C header). -/
def WGPUMapMode_Read : Nat := 1

/-- The implicit conversion of an `int64_t` argument to a `uint64_t` / `size_t`
parameter: reduction modulo `2^64` (`size_t` is taken to be 64 bits wide). -/
def to_uint64 (x : Int) : Nat := (x % 2 ^ 64).toNat

/-! ## Machine state -/

/-- The fields of `WGPUBufferDescriptor` the backend sets. -/
structure WGPUBufferDescriptor where
  label : Option String
  size : Nat
  usage : Nat
deriving DecidableEq, Repr

/-- A device buffer. Its size is the length of `data`; a new buffer is
zero-filled. -/
structure Buffer where
  label : Option String
  usage : Nat
  data : List Byte
  mapped : Bool
  destroyed : Bool
deriving DecidableEq, Repr

/-- A command on the queue timeline. -/
inductive QueueCmd where
  | writeBuffer (buffer bufferOffset : Nat) (bytes : List Byte)
  | copyBufferToBuffer (source sourceOffset destination destinationOffset size : Nat)
deriving DecidableEq, Repr

/-- The struct `wgpu_wait_info`; `result` is the address of the result slot. -/
structure wgpu_wait_info where
  released : Bool
  result : Nat
deriving DecidableEq, Repr

/-- The struct `wgpu_request_adapter_result`; `message = none` is a NULL
message. -/
structure wgpu_request_adapter_result where
  status : Int
  adapter : Nat
  message : Option String
deriving DecidableEq, Repr

/-- The struct `wgpu_request_device_result`; `message = none` is a NULL
message. -/
structure wgpu_request_device_result where
  status : Int
  device : Nat
  message : Option String
deriving DecidableEq, Repr

/-- A memory cell of the wrappers: the objects a wait handle or its untyped
`result` pointer can address. -/
inductive Cell where
  | uninit
  | wait_info (info : wgpu_wait_info)
  | map_status (status : Int)
  | adapter_result (r : wgpu_request_adapter_result)
  | device_result (r : wgpu_request_device_result)
deriving DecidableEq, Repr

/-- A completion the API still owes: the registered callback together with the
arguments it will be invoked with. -/
inductive Callback where
  | map (buffer : Nat) (status : Int) (userdata : Nat)
  | adapter (status : Int) (adapter : Nat) (message : Option String) (userdata : Nat)
  | device (status : Int) (device : Nat) (message : Option String) (userdata : Nat)
deriving DecidableEq, Repr

/-- The `userdata` pointer a pending completion carries. -/
def Callback.userdata : Callback → Nat
  | .map _ _ u => u
  | .adapter _ _ _ u => u
  | .device _ _ _ u => u

/-- The API calls that act on the machine, as recorded in `World.trace`. -/
inductive ApiCall where
  | CreateInstance
  | InstanceRequestAdapter (inst userdata : Nat)
  | AdapterRequestDevice (adapter userdata : Nat)
  | DeviceGetQueue (device : Nat)
  | DeviceCreateBuffer (desc : WGPUBufferDescriptor) (buffer : Nat)
  | QueueSubmit (commands : List QueueCmd)
  | QueueWriteBuffer (buffer bufferOffset : Nat) (bytes : List Byte)
  | BufferMapAsync (buffer mode offset size userdata : Nat)
  | BufferUnmap (buffer : Nat)
  | BufferDestroy (buffer : Nat)
deriving DecidableEq, Repr

/-- Modelled from the spec: the compute API of section 6 and the single
cooperative thread of section 5. `buffers` is indexed by buffer handle,
`queue` holds the submitted commands that have not executed yet (FIFO),
`pending` the completions not delivered yet, `sched` the choices of the
hosting scheduler (one per `emscripten_sleep(0)`), `heap` the cells of the
wait handles, `trace` every API call made so far. -/
structure World where
  buffers : List Buffer
  queue : List QueueCmd
  pending : List Callback
  sched : List Nat
  heap : List Cell
  trace : List ApiCall
deriving DecidableEq, Repr

/-- The arguments of a `futhark_panic` call after the format string. -/
inductive PanicArg where
  | int (v : Int)
  | str (s : String)
deriving DecidableEq, Repr

/-- A call of the fatal reporting function: exit code, format string,
arguments. -/
structure Panic where
  eval : Int
  fmt : String
  args : List PanicArg
deriving DecidableEq, Repr

/-- Modelled from the spec: the fatal reporting function of the surrounding
runtime, which "formats a message (optionally including a status code and
diagnostic string) and terminates the process"; it is declared outside
`backends/webgpu.h`. The embedding records the call. -/
def futhark_panic (eval : Int) (fmt : String) (args : List PanicArg) : Panic :=
  ⟨eval, fmt, args⟩

/-- How a call of the backend ends: it returns `value` in state `state`, the
process is terminated by `futhark_panic` in state `state`, or the call never
returns. -/
inductive Outcome (σ : Type) (α : Type) where
  | returns (value : α) (state : σ)
  | panics (p : Panic) (state : σ)
  | hangs
deriving DecidableEq, Repr

/-! ## The device model

The WebGPU C API is a library outside the repository. Its entries are
modelled after section 6 of the spec (external interfaces) and the queue
semantics of sections 4.3 and 5: commands submitted to the queue execute in
submission order, and completion is observed only through the mapping
callback. -/

/-- Overwrite `bytes.length` bytes of `data` from index `off`. -/
def writeRange (data : List Byte) (off : Nat) (bytes : List Byte) : List Byte :=
  data.take off ++ bytes ++ data.drop (off + bytes.length)

/-- The bytes `[off, off + n)` of `data`. -/
def readRange (data : List Byte) (off n : Nat) : List Byte :=
  (data.drop off).take n

/-- A buffer handle that names a buffer which has not been destroyed. -/
def live (bufs : List Buffer) (b : Nat) : Bool :=
  match bufs[b]? with
  | some buf => !buf.destroyed
  | none => false

/-- The size of buffer `b`, zero when there is no such buffer. -/
def bufferSize (bufs : List Buffer) (b : Nat) : Nat :=
  match bufs[b]? with
  | some buf => buf.data.length
  | none => 0

/-- The contents of buffer `b`. -/
def bufferData (bufs : List Buffer) (b : Nat) : List Byte :=
  match bufs[b]? with
  | some buf => buf.data
  | none => []

/-- Everything of a buffer except its contents: label, usage, size, mapped and
destroyed flags. -/
def Buffer.shape (b : Buffer) : Option String × Nat × Nat × Bool × Bool :=
  (b.label, b.usage, b.data.length, b.mapped, b.destroyed)

/-- Submission-time validation: the buffers are live and the ranges lie
inside them. -/
def validCmd (bufs : List Buffer) : QueueCmd → Bool
  | .writeBuffer b off bytes => live bufs b && decide (off + bytes.length ≤ bufferSize bufs b)
  | .copyBufferToBuffer s so d dof n =>
    live bufs s && live bufs d && decide (so + n ≤ bufferSize bufs s)
      && decide (dof + n ≤ bufferSize bufs d)

/-- Execute one queue command on the buffer table. A copy reads its source
range before it writes. -/
def execCmd (bufs : List Buffer) : QueueCmd → List Buffer
  | .writeBuffer b off bytes =>
    match bufs[b]? with
    | some buf =>
      if off + bytes.length ≤ buf.data.length then
        bufs.set b { buf with data := writeRange buf.data off bytes }
      else bufs
    | none => bufs
  | .copyBufferToBuffer s so d dof n =>
    match bufs[s]?, bufs[d]? with
    | some sb, some db =>
      if so + n ≤ sb.data.length ∧ dof + n ≤ db.data.length then
        bufs.set d { db with data := writeRange db.data dof (readRange sb.data so n) }
      else bufs
    | _, _ => bufs

/-- In-order execution of the queue: every submitted command runs, oldest
first. -/
def World.flush (w : World) : World :=
  { w with buffers := w.queue.foldl execCmd w.buffers, queue := [] }

/-- Record an API call. -/
def World.log (w : World) (c : ApiCall) : World :=
  { w with trace := w.trace ++ [c] }

/-- The API entry `wgpuCreateInstance`; the descriptor is not looked at. -/
def wgpuCreateInstance (_descriptor : Nat) (w : World) : Nat × World :=
  (1, w.log .CreateInstance)

/-- The API entry `wgpuDeviceGetQueue`. -/
def wgpuDeviceGetQueue (device : Nat) (w : World) : Nat × World :=
  (1, w.log (.DeviceGetQueue device))

/-- The API entry `wgpuDeviceCreateBuffer`: a fresh zero-filled buffer whose
handle is the next free index. -/
def wgpuDeviceCreateBuffer (_device : Nat) (desc : WGPUBufferDescriptor) (w : World) :
    Nat × World :=
  (w.buffers.length,
    { w with
      buffers := w.buffers ++ [⟨desc.label, desc.usage, List.replicate desc.size 0, false, false⟩]
      trace := w.trace ++ [.DeviceCreateBuffer desc w.buffers.length] })

/-- A command encoder: the commands recorded so far. -/
abbrev WGPUCommandEncoder := List QueueCmd

/-- A finished command buffer. -/
abbrev WGPUCommandBuffer := List QueueCmd

/-- The API entry `wgpuDeviceCreateCommandEncoder`; the descriptor is not
looked at. -/
def wgpuDeviceCreateCommandEncoder (_device _descriptor : Nat) : WGPUCommandEncoder := []

/-- The API entry `wgpuCommandEncoderCopyBufferToBuffer`. -/
def wgpuCommandEncoderCopyBufferToBuffer (encoder : WGPUCommandEncoder)
    (source sourceOffset destination destinationOffset size : Nat) : WGPUCommandEncoder :=
  encoder ++ [.copyBufferToBuffer source sourceOffset destination destinationOffset size]

/-- The API entry `wgpuCommandEncoderFinish`; the descriptor is not looked
at. -/
def wgpuCommandEncoderFinish (encoder : WGPUCommandEncoder) (_descriptor : Nat) :
    WGPUCommandBuffer := encoder

/-- The API entry `wgpuQueueSubmit`; the count and the array of the C call are
the list `commands`. The commands of the given command buffers join the queue
when they pass validation; the call does not wait. -/
def wgpuQueueSubmit (_queue : Nat) (commands : List WGPUCommandBuffer) (w : World) : World :=
  let cmds := commands.flatten
  { w with
    queue := w.queue ++ (if cmds.all (validCmd w.buffers) then cmds else [])
    trace := w.trace ++ [.QueueSubmit cmds] }

/-- The API entry `wgpuQueueWriteBuffer`, with the argument list of the call in
`memcpy_host2gpu`: buffer, buffer offset, data, data offset, size. The bytes
are copied out of the host source at call time and written in queue order. -/
def wgpuQueueWriteBuffer (_queue : Nat) (buffer bufferOffset : Nat) (data : List Byte)
    (dataOffset size : Nat) (w : World) : World :=
  let bytes := readRange data dataOffset size
  let cmd := QueueCmd.writeBuffer buffer bufferOffset bytes
  { w with
    queue := w.queue ++ (if validCmd w.buffers cmd then [cmd] else [])
    trace := w.trace ++ [.QueueWriteBuffer buffer bufferOffset bytes] }

/-- The API entry `wgpuBufferMapAsync`: registers the completion; `status` is
the status the API will report for this request. -/
def wgpuBufferMapAsync (buffer mode offset size : Nat) (status : Int) (userdata : Nat)
    (w : World) : World :=
  { w with
    pending := w.pending ++ [.map buffer status userdata]
    trace := w.trace ++ [.BufferMapAsync buffer mode offset size userdata] }

/-- The API entry `wgpuInstanceRequestAdapter`: registers the completion with
the reply the API will give. -/
def wgpuInstanceRequestAdapter (inst : Nat) (_options : Nat)
    (reply : wgpu_request_adapter_result) (userdata : Nat) (w : World) : World :=
  { w with
    pending := w.pending ++ [.adapter reply.status reply.adapter reply.message userdata]
    trace := w.trace ++ [.InstanceRequestAdapter inst userdata] }

/-- The API entry `wgpuAdapterRequestDevice`: registers the completion with the
reply the API will give. -/
def wgpuAdapterRequestDevice (adapter : Nat) (_descriptor : Nat)
    (reply : wgpu_request_device_result) (userdata : Nat) (w : World) : World :=
  { w with
    pending := w.pending ++ [.device reply.status reply.device reply.message userdata]
    trace := w.trace ++ [.AdapterRequestDevice adapter userdata] }

/-- Set the `mapped` flag of a buffer. -/
def setMapped (bufs : List Buffer) (b : Nat) (m : Bool) : List Buffer :=
  match bufs[b]? with
  | some buf => bufs.set b { buf with mapped := m }
  | none => bufs

/-- The API entry `wgpuBufferGetConstMappedRange`: the mapped bytes, nothing
when the buffer is not mapped. -/
def wgpuBufferGetConstMappedRange (buffer offset size : Nat) (w : World) : List Byte :=
  match w.buffers[buffer]? with
  | some buf => if buf.mapped then readRange buf.data offset size else []
  | none => []

/-- The API entry `wgpuBufferUnmap`. -/
def wgpuBufferUnmap (buffer : Nat) (w : World) : World :=
  { w with
    buffers := setMapped w.buffers buffer false
    trace := w.trace ++ [.BufferUnmap buffer] }

/-- The API entry `wgpuBufferDestroy`: the buffer is unmapped and gone at
once. -/
def wgpuBufferDestroy (buffer : Nat) (w : World) : World :=
  { w with
    buffers :=
      match w.buffers[buffer]? with
      | some buf => w.buffers.set buffer { buf with mapped := false, destroyed := true }
      | none => w.buffers
    trace := w.trace ++ [.BufferDestroy buffer] }

/-- The C library `memcpy(dst, src, n)` on a host array: the first `n` bytes of
`dst` become the first `n` bytes of `src`. -/
def memcpy (dst src : List Byte) (n : Nat) : List Byte :=
  src.take n ++ dst.drop n

/-! ## Synchronous wrappers (lines 6-108) -/

/-- The callback `wgpu_map_sync_callback`: `*info->result = status;
info->released = true;`. -/
def wgpu_map_sync_callback (status : Int) (info_v : Nat) (heap : List Cell) : List Cell :=
  match heap[info_v]? with
  | some (.wait_info info) =>
    (heap.set info.result (.map_status status)).set info_v
      (.wait_info { info with released := true })
  | _ => heap

/-- The callback `wgpu_request_adapter_callback`. The source names its last
parameter `userdata` and reads `info_v` in the body; the embedding reads the
parameter under that name, as `wgpu_map_sync_callback` does. -/
def wgpu_request_adapter_callback (status : Int) (adapter : Nat) (message : Option String)
    (userdata : Nat) (heap : List Cell) : List Cell :=
  let info_v := userdata
  match heap[info_v]? with
  | some (.wait_info info) =>
    (heap.set info.result (.adapter_result ⟨status, adapter, message⟩)).set info_v
      (.wait_info { info with released := true })
  | _ => heap

/-- The callback `wgpu_request_device_callback`; `info_v` is read as in
`wgpu_request_adapter_callback`. -/
def wgpu_request_device_callback (status : Int) (device : Nat) (message : Option String)
    (userdata : Nat) (heap : List Cell) : List Cell :=
  let info_v := userdata
  match heap[info_v]? with
  | some (.wait_info info) =>
    (heap.set info.result (.device_result ⟨status, device, message⟩)).set info_v
      (.wait_info { info with released := true })
  | _ => heap

/-- Delivery of one completion by the API. A map completion comes after the
queue has executed; the buffer is mapped when the status is success. Then the
registered callback runs. -/
def deliver (cb : Callback) (w : World) : World :=
  match cb with
  | .map buffer status userdata =>
    let w := w.flush
    let w :=
      if status = WGPUBufferMapAsyncStatus_Success then
        { w with buffers := setMapped w.buffers buffer true }
      else w
    { w with heap := wgpu_map_sync_callback status userdata w.heap }
  | .adapter status adapter message userdata =>
    { w with heap := wgpu_request_adapter_callback status adapter message userdata w.heap }
  | .device status device message userdata =>
    { w with heap := wgpu_request_device_callback status device message userdata w.heap }

/-- The host call `emscripten_sleep(0)`: control goes to the hosting
scheduler, which delivers one of the pending completions, the one its next
choice selects (the oldest when the choices are used up). With nothing pending
nothing happens. A wake-up that delivers nothing although completions are
pending changes no state and is left out. -/
def emscripten_sleep (w : World) : World :=
  match w.pending[w.sched.headD 0 % w.pending.length]? with
  | some cb =>
    deliver cb
      { w with
        pending := w.pending.eraseIdx (w.sched.headD 0 % w.pending.length)
        sched := w.sched.tail }
  | none => { w with sched := w.sched.tail }

/-- The value of `info.released` for the wait handle at address `info`. -/
def released (heap : List Cell) (info : Nat) : Bool :=
  match heap[info]? with
  | some (.wait_info i) => i.released
  | _ => false

/-- The loop `while (!info.released) { emscripten_sleep(0); }`. Every sleep
delivers one pending completion, so after `fuel = pending.length` sleeps
nothing is pending and the flag cannot change any more: `none` is the loop
that spins forever. -/
def wait_released (info : Nat) : Nat → World → Option World
  | 0, w => if released w.heap info then some w else none
  | fuel + 1, w =>
    if released w.heap info then some w
    else wait_released info fuel (emscripten_sleep w)

/-- The wrapper `wgpu_map_buffer_sync`. The locals `status` and `info` are two
fresh cells; `st` is the status the API reports for this request. `none`: the
call never returns a status. -/
def wgpu_map_buffer_sync (buffer mode offset size : Nat) (st : Int) (w : World) :
    Option (Int × World) :=
  let status := w.heap.length
  let info := w.heap.length + 1
  let w := { w with heap := w.heap ++ [.uninit, .wait_info ⟨false, status⟩] }
  let w := wgpuBufferMapAsync buffer mode offset size st info w
  match wait_released info w.pending.length w with
  | none => none
  | some w =>
    match w.heap[status]? with
    | some (.map_status s) => some (s, w)
    | _ => none

/-- The wrapper `wgpu_request_adapter_sync`; `result = {}` is a zeroed
struct. `reply` is what the API reports for this request. -/
def wgpu_request_adapter_sync (inst : Nat) (options : Nat)
    (reply : wgpu_request_adapter_result) (w : World) :
    Option (wgpu_request_adapter_result × World) :=
  let result := w.heap.length
  let info := w.heap.length + 1
  let w :=
    { w with heap := w.heap ++ [.adapter_result ⟨0, NULL, none⟩, .wait_info ⟨false, result⟩] }
  let w := wgpuInstanceRequestAdapter inst options reply info w
  match wait_released info w.pending.length w with
  | none => none
  | some w =>
    match w.heap[result]? with
    | some (.adapter_result r) => some (r, w)
    | _ => none

/-- The wrapper `wgpu_request_device_sync`. -/
def wgpu_request_device_sync (adapter : Nat) (descriptor : Nat)
    (reply : wgpu_request_device_result) (w : World) :
    Option (wgpu_request_device_result × World) :=
  let result := w.heap.length
  let info := w.heap.length + 1
  let w :=
    { w with heap := w.heap ++ [.device_result ⟨0, NULL, none⟩, .wait_info ⟨false, result⟩] }
  let w := wgpuAdapterRequestDevice adapter descriptor reply info w
  match wait_released info w.pending.length w with
  | none => none
  | some w =>
    match w.heap[result]? with
    | some (.device_result r) => some (r, w)
    | _ => none

/-! ## Context setup (lines 143-209) -/

/-- The fields of `struct futhark_context` the backend reads or writes.
Handles are numbers, `NULL` is zero; `log` is the text written to `ctx->log`;
`inst` is the field `instance`. -/
structure futhark_context where
  debugging : Bool
  log : List String
  inst : Nat
  adapter : Nat
  device : Nat
  queue : Nat
  kernels : Nat
deriving DecidableEq, Repr

/-- The function `backend_context_setup`. `adapter_reply` and `device_reply`
are what the API reports for the two requests. The body has no `return`
statement: when control reaches its end no value is returned (`none`). -/
def backend_context_setup (ctx : futhark_context)
    (adapter_reply : wgpu_request_adapter_result) (device_reply : wgpu_request_device_result)
    (w : World) : Outcome (futhark_context × World) (Option Int) :=
  let ctx := { ctx with kernels := NULL }
  let (inst, w) := wgpuCreateInstance NULL w
  let ctx := { ctx with inst := inst }
  match wgpu_request_adapter_sync ctx.inst NULL adapter_reply w with
  | none => .hangs
  | some (adapter_result, w) =>
    if adapter_result.status ≠ WGPURequestAdapterStatus_Success then
      match adapter_result.message with
      | some message =>
        .panics (futhark_panic (-1) "Could not get WebGPU adapter, status: %d\nMessage: %s\n"
          [.int adapter_result.status, .str message]) (ctx, w)
      | none =>
        .panics (futhark_panic (-1) "Could not get WebGPU adapter, status: %d\n"
          [.int adapter_result.status]) (ctx, w)
    else
      let ctx := { ctx with adapter := adapter_result.adapter }
      match wgpu_request_device_sync ctx.adapter NULL device_reply w with
      | none => .hangs
      | some (device_result, w) =>
        if device_result.status ≠ WGPURequestDeviceStatus_Success then
          match device_result.message with
          | some message =>
            .panics (futhark_panic (-1) "Could not get WebGPU device, status: %d\nMessage: %s\n"
              [.int device_result.status, .str message]) (ctx, w)
          | none =>
            .panics (futhark_panic (-1) "Could not get WebGPU device, status: %d\n"
              [.int device_result.status]) (ctx, w)
        else
          let ctx := { ctx with device := device_result.device }
          let (queue, w) := wgpuDeviceGetQueue ctx.device w
          let ctx := { ctx with queue := queue }
          .returns none (ctx, w)

/-! ## GPU abstraction layer (lines 211-383) -/

/-- The struct `wgpu_kernel`. -/
structure wgpu_kernel where
  bind_group_layout : Nat
  pipeline_layout : Nat
  pipeline : Nat
deriving DecidableEq, Repr

/-- The type `gpu_kernel` (`typedef struct wgpu_kernel* gpu_kernel`): the
address of a descriptor,
`NULL` when there is none. -/
abbrev gpu_kernel := Nat

/-- The type `gpu_mem` (`typedef WGPUBuffer gpu_mem`): a buffer handle. -/
abbrev gpu_mem := Nat

/-- The function `gpu_create_kernel`; `kernel` is the value of `*kernel` on
entry and the second component of the result its value on exit. The body
writes the debug line and ends with `TODO: Need layout information here to
create pipeline etc.`. -/
def gpu_create_kernel (ctx : futhark_context) (kernel : gpu_kernel) (name : String) :
    futhark_context × gpu_kernel :=
  let ctx :=
    if ctx.debugging then
      { ctx with log := ctx.log ++ ["Creating kernel " ++ name ++ ".\n"] }
    else ctx
  (ctx, kernel)

/-- The function `gpu_free_kernel`: both arguments are unused. -/
def gpu_free_kernel (_ctx : futhark_context) (_kernel : gpu_kernel) : Unit := ()

/-- The function `gpu_scalar_to_device`; its call of `wgpuQueueWriteBuffer`
has no data offset. No `return` statement: no value is returned. -/
def gpu_scalar_to_device (ctx : futhark_context) (dst : gpu_mem) (offset size : Nat)
    (src : List Byte) (w : World) : Option Int × World :=
  let w := wgpuQueueWriteBuffer ctx.queue dst offset src 0 size w
  (none, w)

/-- The function `gpu_scalar_from_device`; `st` is the status the API reports
for the mapping. The state of the outcome is the machine and the host
destination `dst`. -/
def gpu_scalar_from_device (ctx : futhark_context) (dst : List Byte) (src : gpu_mem)
    (offset size : Nat) (st : Int) (w : World) : Outcome (World × List Byte) (Option Int) :=
  let desc : WGPUBufferDescriptor :=
    { label := some "tmp_readback"
      size := size
      usage := WGPUBufferUsage_MapRead ||| WGPUBufferUsage_CopyDst }
  let (readback, w) := wgpuDeviceCreateBuffer ctx.device desc w
  let encoder := wgpuDeviceCreateCommandEncoder ctx.device NULL
  let encoder := wgpuCommandEncoderCopyBufferToBuffer encoder src offset readback 0 size
  let commandBuffer := wgpuCommandEncoderFinish encoder NULL
  let w := wgpuQueueSubmit ctx.queue [commandBuffer] w
  match wgpu_map_buffer_sync readback WGPUMapMode_Read 0 size st w with
  | none => .hangs
  | some (status, w) =>
    if status ≠ WGPUBufferMapAsyncStatus_Success then
      .panics (futhark_panic (-1) "Failed to read scalar from device memory with error %d\n"
        [.int status]) (w, dst)
    else
      let mapped := wgpuBufferGetConstMappedRange readback 0 size w
      let dst := memcpy dst mapped size
      let w := wgpuBufferUnmap readback w
      let w := wgpuBufferDestroy readback w
      .returns (some FUTHARK_SUCCESS) (w, dst)

/-- The function `gpu_memcpy` (its last line reads `return FUTHARK_SUCCESS:`). -/
def gpu_memcpy (ctx : futhark_context) (dst : gpu_mem) (dst_offset : Int) (src : gpu_mem)
    (src_offset : Int) (nbytes : Int) (w : World) : Option Int × World :=
  let encoder := wgpuDeviceCreateCommandEncoder ctx.device NULL
  let encoder := wgpuCommandEncoderCopyBufferToBuffer encoder
    src (to_uint64 src_offset) dst (to_uint64 dst_offset) (to_uint64 nbytes)
  let commandBuffer := wgpuCommandEncoderFinish encoder NULL
  let w := wgpuQueueSubmit ctx.queue [commandBuffer] w
  (some FUTHARK_SUCCESS, w)

/-- The function `memcpy_host2gpu`. After the write there is no `return`
statement: no value is returned on that path. -/
def memcpy_host2gpu (ctx : futhark_context) (_sync : Bool) (dst : gpu_mem) (dst_offset : Int)
    (src : List Byte) (src_offset : Int) (nbytes : Int) (w : World) : Option Int × World :=
  if nbytes ≤ 0 then (some FUTHARK_SUCCESS, w)
  else
    let w := wgpuQueueWriteBuffer ctx.queue dst (to_uint64 dst_offset) src
      (to_uint64 src_offset) (to_uint64 nbytes) w
    (none, w)

/-- The function `memcpy_gpu2host`. The copy command reads the source buffer
at `offset`, a name the function does not declare (its parameters are
`dst_offset` and `src_offset`); the embedding takes it as an argument. `st` is
the status the API reports for the mapping. `memcpy(dst, mapped, nbytes)`
writes at the start of `dst`. The state of the outcome is the machine and the
host destination `dst`. -/
def memcpy_gpu2host (ctx : futhark_context) (_sync : Bool) (dst : List Byte) (_dst_offset : Int)
    (src : gpu_mem) (_src_offset : Int) (nbytes : Int) (offset : Nat) (st : Int) (w : World) :
    Outcome (World × List Byte) (Option Int) :=
  if nbytes ≤ 0 then .returns (some FUTHARK_SUCCESS) (w, dst)
  else
    let desc : WGPUBufferDescriptor :=
      { label := some "tmp_readback"
        size := to_uint64 nbytes
        usage := WGPUBufferUsage_MapRead ||| WGPUBufferUsage_CopyDst }
    let (readback, w) := wgpuDeviceCreateBuffer ctx.device desc w
    let encoder := wgpuDeviceCreateCommandEncoder ctx.device NULL
    let encoder := wgpuCommandEncoderCopyBufferToBuffer encoder src offset readback 0
      (to_uint64 nbytes)
    let commandBuffer := wgpuCommandEncoderFinish encoder NULL
    let w := wgpuQueueSubmit ctx.queue [commandBuffer] w
    match wgpu_map_buffer_sync readback WGPUMapMode_Read 0 (to_uint64 nbytes) st w with
    | none => .hangs
    | some (status, w) =>
      if status ≠ WGPUBufferMapAsyncStatus_Success then
        .panics (futhark_panic (-1) "Failed to copy from device memory with error %d\n"
          [.int status]) (w, dst)
      else
        let mapped := wgpuBufferGetConstMappedRange readback 0 (to_uint64 nbytes) w
        let dst := memcpy dst mapped (to_uint64 nbytes)
        let w := wgpuBufferUnmap readback w
        let w := wgpuBufferDestroy readback w
        .returns (some FUTHARK_SUCCESS) (w, dst)

/-- The function `gpu_launch_kernel`: the body is a comment, so nothing is done
and no value is returned. -/
def gpu_launch_kernel (_ctx : futhark_context) (_kernel : gpu_kernel) (_name : String)
    (_grid _block : List Int) (_shared_mem_bytes : Nat) (_num_args : Int)
    (_args : List (List Byte)) (_args_sizes : List Nat) (w : World) : Option Int × World :=
  (none, w)

/-- The function `gpu_alloc_actual`: the new handle is stored through
`mem_out`. -/
def gpu_alloc_actual (ctx : futhark_context) (size : Nat) (w : World) :
    Option Int × gpu_mem × World :=
  let desc : WGPUBufferDescriptor :=
    { label := none
      size := size
      usage := WGPUBufferUsage_CopySrc ||| WGPUBufferUsage_CopyDst ||| WGPUBufferUsage_Storage }
  let (mem_out, w) := wgpuDeviceCreateBuffer ctx.device desc w
  (some FUTHARK_SUCCESS, mem_out, w)

/-- The function `gpu_free_actual`. -/
def gpu_free_actual (_ctx : futhark_context) (mem : gpu_mem) (w : World) : Option Int × World :=
  let w := wgpuBufferDestroy mem w
  (some FUTHARK_SUCCESS, w)


/-- The staging buffer as `wgpuDeviceCreateBuffer` makes it for the descriptor
of the two readback paths: label `tmp_readback`, usage `MapRead | CopyDst`,
`size` zero bytes, neither mapped nor destroyed. -/
def readbackBuffer (size : Nat) : Buffer :=
  ⟨some "tmp_readback", WGPUBufferUsage_MapRead ||| WGPUBufferUsage_CopyDst,
    List.replicate size 0, false, false⟩

/-- The contents of the staging buffer of a readback of `size` bytes of `src`
from `offset`, once the buffer has been created, the copy submitted and the
queue executed. -/
def readbackData (w : World) (src offset size : Nat) : List Byte :=
  bufferData
    (wgpuQueueSubmit 0 [[.copyBufferToBuffer src offset w.buffers.length 0 size]]
      (wgpuDeviceCreateBuffer 0
        ⟨some "tmp_readback", size, WGPUBufferUsage_MapRead ||| WGPUBufferUsage_CopyDst⟩
        w).2).flush.buffers
    w.buffers.length

/-- The API calls of a readback up to the wait for the mapping. -/
def readbackTrace (w : World) (src offset size : Nat) : List ApiCall :=
  [.DeviceCreateBuffer
      ⟨some "tmp_readback", size, WGPUBufferUsage_MapRead ||| WGPUBufferUsage_CopyDst⟩
      w.buffers.length,
    .QueueSubmit [.copyBufferToBuffer src offset w.buffers.length 0 size],
    .BufferMapAsync w.buffers.length WGPUMapMode_Read 0 size (w.heap.length + 1)]

/-- The round-trip scenario of the spec: allocate `B.length` bytes, transfer `B`
to the device at offset 0, read `B.length` bytes back from offset 0 into
`host` (both offsets of `memcpy_gpu2host` and the `offset` its copy command
names are 0); `st` is the status the API reports for the staging-buffer
mapping. -/
def round_trip (ctx : futhark_context) (sync_up sync_down : Bool) (B host : List Byte)
    (st : Int) (w : World) : Outcome (World × List Byte) (Option Int) :=
  let (_, mem, w) := gpu_alloc_actual ctx B.length w
  let (_, w) := memcpy_host2gpu ctx sync_up mem 0 B 0 B.length w
  memcpy_gpu2host ctx sync_down host 0 mem 0 B.length 0 st w

/-! ## Outstanding operations -/

/-- The `result` pointer of the wait handle at address `a`, when that cell is
a wait handle. -/
def resultOf (heap : List Cell) (a : Nat) : Option Nat :=
  match heap[a]? with
  | some (.wait_info i) => some i.result
  | _ => none

/-- The value a completion's callback stores in the result slot. -/
def Callback.value : Callback → Cell
  | .map _ s _ => .map_status s
  | .adapter s a m _ => .adapter_result ⟨s, a, m⟩
  | .device s d m _ => .device_result ⟨s, d, m⟩

/-- The callback of a completion, run on the memory cells. -/
def Callback.run : Callback → List Cell → List Cell
  | .map _ s u => wgpu_map_sync_callback s u
  | .adapter s a m u => wgpu_request_adapter_callback s a m u
  | .device s d m u => wgpu_request_device_callback s d m u

/-- The operations `ops` were each issued with a wait handle of their own:
the handles are pairwise different cells, each a `wgpu_wait_info` whose
`result` points to an allocated slot, the slots are pairwise different and no
slot is a handle. The completions still owed (`w.pending`) are among `ops`,
each once; an operation whose completion is still owed has `released = false`,
one whose completion has been delivered has `released = true` and its slot
holds the value its callback was invoked with. -/
def Isolated (ops : List Callback) (w : World) : Prop :=
  (ops.map Callback.userdata).Nodup ∧
  (∀ c ∈ ops, (resultOf w.heap c.userdata).isSome = true ∧
    ∀ r ∈ resultOf w.heap c.userdata, r < w.heap.length) ∧
  (∀ c ∈ ops, ∀ d ∈ ops, c.userdata ≠ d.userdata →
    resultOf w.heap c.userdata ≠ resultOf w.heap d.userdata) ∧
  (∀ c ∈ ops, ∀ d ∈ ops, resultOf w.heap c.userdata ≠ some d.userdata) ∧
  w.pending.Nodup ∧
  (∀ c ∈ w.pending, c ∈ ops) ∧
  (∀ c ∈ ops,
    if c ∈ w.pending then released w.heap c.userdata = false
    else released w.heap c.userdata = true ∧
      ∀ r ∈ resultOf w.heap c.userdata, w.heap[r]? = some c.value)

/-! ## Sample states -/

/-- A context with every handle `NULL`, debugging off. -/
def futhark_context.start : futhark_context := ⟨false, [], NULL, NULL, NULL, NULL, NULL⟩

/-- The machine before any call: no buffer, nothing queued, nothing pending. -/
def World.start : World := ⟨[], [], [], [], [], []⟩

/-- A machine with one live two-byte buffer holding 1, 2. -/
def World.oneBuffer : World :=
  { World.start with buffers := [⟨none, 140, [1, 2], false, false⟩] }

/-- A machine with two live four-byte buffers, the first holding 1, 2, 3, 4. -/
def World.twoBuffers : World :=
  { World.start with
    buffers := [⟨none, 140, [1, 2, 3, 4], false, false⟩, ⟨none, 140, [0, 0, 0, 0], false, false⟩] }

/-- Two map requests outstanding, with handles at cells 1 and 3 and status
slots at cells 0 and 2; the scheduler will deliver the younger one first. -/
def World.twoPending : World :=
  { World.start with
    pending := [.map 0 5 1, .map 0 7 3]
    sched := [1]
    heap := [.uninit, .wait_info ⟨false, 0⟩, .uninit, .wait_info ⟨false, 2⟩] }

/-! ## Facts about the device model -/

theorem to_uint64_natCast (n : Nat) (h : n < 2 ^ 63) : to_uint64 (n : Int) = n := by
  unfold to_uint64
  have h1 : ((n : Int)) % 2 ^ 64 = n := by
    apply Int.emod_eq_of_lt (by positivity)
    have : (n : Int) < 2 ^ 63 := by exact_mod_cast h
    omega
  rw [h1]; simp

theorem to_uint64_of_range (x : Int) (h0 : 0 ≤ x) (h : x < 2 ^ 63) : to_uint64 x = x.toNat := by
  unfold to_uint64
  rw [Int.emod_eq_of_lt h0 (by omega)]

theorem writeRange_length (data : List Byte) (off : Nat) (bytes : List Byte)
    (h : off + bytes.length ≤ data.length) :
    (writeRange data off bytes).length = data.length := by
  simp only [writeRange, List.length_append, List.length_take, List.length_drop]
  omega

theorem readRange_length (data : List Byte) (off n : Nat) (h : off + n ≤ data.length) :
    (readRange data off n).length = n := by
  simp only [readRange, List.length_take, List.length_drop]
  omega

theorem readRange_writeRange (data : List Byte) (off : Nat) (bytes : List Byte)
    (h : off + bytes.length ≤ data.length) :
    readRange (writeRange data off bytes) off bytes.length = bytes := by
  have h1 : (data.take off).length = off := by
    rw [List.length_take]; omega
  simp only [writeRange, readRange, List.append_assoc]
  rw [List.drop_append_eq_append_drop, List.drop_of_length_le (by omega), h1, Nat.sub_self]
  simp

theorem readRange_all (data : List Byte) : readRange data 0 data.length = data := by
  simp [readRange]

theorem writeRange_all (data bytes : List Byte) (h : bytes.length = data.length) :
    writeRange data 0 bytes = bytes := by
  simp [writeRange, h]

theorem set_same_shape (bufs : List Buffer) (b : Nat) (buf buf2 : Buffer)
    (hb : bufs[b]? = some buf) (hs : buf2.shape = buf.shape) :
    (bufs.set b buf2).map Buffer.shape = bufs.map Buffer.shape := by
  apply List.ext_getElem?
  intro i
  simp only [List.getElem?_map, List.getElem?_set]
  by_cases h : b = i
  · subst h
    have hlt : b < bufs.length := by
      rcases List.getElem?_eq_some.1 hb with ⟨h, _⟩; exact h
    simp [hlt, hb, hs]
  · simp [h]

theorem execCmd_shape (bufs : List Buffer) (c : QueueCmd) :
    (execCmd bufs c).map Buffer.shape = bufs.map Buffer.shape := by
  cases c with
  | writeBuffer b off bytes =>
    simp only [execCmd]
    cases hb : bufs[b]? with
    | none => rfl
    | some buf =>
      simp only []
      split
      · rename_i hle
        exact set_same_shape bufs b buf _ hb (by simp [Buffer.shape, writeRange_length _ _ _ hle])
      · rfl
  | copyBufferToBuffer s so d dof n =>
    simp only [execCmd]
    cases hs : bufs[s]? with
    | none => rfl
    | some sb =>
      cases hd : bufs[d]? with
      | none => rfl
      | some db =>
        simp only []
        split
        · rename_i hle
          refine set_same_shape bufs d db _ hd ?_
          have hl := readRange_length sb.data so n hle.1
          have hw := writeRange_length db.data dof (readRange sb.data so n)
            (by rw [hl]; exact hle.2)
          simp [Buffer.shape, hw]
        · rfl

theorem foldl_execCmd_shape (q : List QueueCmd) (bufs : List Buffer) :
    (q.foldl execCmd bufs).map Buffer.shape = bufs.map Buffer.shape := by
  induction q generalizing bufs with
  | nil => rfl
  | cons c q ih => rw [List.foldl_cons, ih, execCmd_shape]

theorem shape_getElem? {bufs bufs2 : List Buffer}
    (h : bufs2.map Buffer.shape = bufs.map Buffer.shape) (b : Nat) :
    (bufs2[b]?).map Buffer.shape = (bufs[b]?).map Buffer.shape := by
  rw [← List.getElem?_map, ← List.getElem?_map, h]

theorem shape_length {bufs bufs2 : List Buffer}
    (h : bufs2.map Buffer.shape = bufs.map Buffer.shape) : bufs2.length = bufs.length := by
  have := congrArg List.length h
  simpa using this

theorem shape_live {bufs bufs2 : List Buffer}
    (h : bufs2.map Buffer.shape = bufs.map Buffer.shape) (b : Nat) :
    live bufs2 b = live bufs b := by
  have := shape_getElem? h b
  unfold live
  cases h1 : bufs2[b]? <;> cases h2 : bufs[b]? <;> simp_all [Buffer.shape]

theorem shape_bufferSize {bufs bufs2 : List Buffer}
    (h : bufs2.map Buffer.shape = bufs.map Buffer.shape) (b : Nat) :
    bufferSize bufs2 b = bufferSize bufs b := by
  have := shape_getElem? h b
  unfold bufferSize
  cases h1 : bufs2[b]? <;> cases h2 : bufs[b]? <;> simp_all [Buffer.shape]

theorem live_lt {bufs : List Buffer} {b : Nat} (h : live bufs b = true) : b < bufs.length := by
  unfold live at h
  cases hb : bufs[b]? with
  | none => simp [hb] at h
  | some buf => exact (List.getElem?_eq_some.1 hb).1

theorem bufferData_length (bufs : List Buffer) (b : Nat) :
    (bufferData bufs b).length = bufferSize bufs b := by
  unfold bufferData bufferSize
  cases bufs[b]? <;> rfl

theorem bufferData_exec_copy (bufs : List Buffer) (s so d dof n : Nat)
    (hs : s < bufs.length) (hd : d < bufs.length)
    (h1 : so + n ≤ bufferSize bufs s) (h2 : dof + n ≤ bufferSize bufs d) :
    bufferData (execCmd bufs (.copyBufferToBuffer s so d dof n)) d =
      writeRange (bufferData bufs d) dof (readRange (bufferData bufs s) so n) := by
  obtain ⟨sb, hsb⟩ : ∃ sb, bufs[s]? = some sb := ⟨bufs[s], List.getElem?_eq_getElem hs⟩
  obtain ⟨db, hdb⟩ : ∃ db, bufs[d]? = some db := ⟨bufs[d], List.getElem?_eq_getElem hd⟩
  simp only [bufferSize, hsb, hdb] at h1 h2
  simp only [execCmd, hsb, hdb, h1, h2, and_self, if_true, bufferData,
    List.getElem?_set_self hd]

theorem bufferData_exec_write (bufs : List Buffer) (b off : Nat) (bytes : List Byte)
    (hb : b < bufs.length) (h1 : off + bytes.length ≤ bufferSize bufs b) :
    bufferData (execCmd bufs (.writeBuffer b off bytes)) b =
      writeRange (bufferData bufs b) off bytes := by
  obtain ⟨buf, hbuf⟩ : ∃ buf, bufs[b]? = some buf := ⟨bufs[b], List.getElem?_eq_getElem hb⟩
  simp only [bufferSize, hbuf] at h1
  simp only [execCmd, hbuf, h1, if_true, bufferData, List.getElem?_set_self hb]


theorem staging_decompose (X : List Buffer) (s : Buffer) (L : List Buffer)
    (h : L.map Buffer.shape = (X ++ [s]).map Buffer.shape) :
    L = L.take X.length ++ [{ s with data := bufferData L X.length }] ∧
      (L.take X.length).map Buffer.shape = X.map Buffer.shape := by
  have hlen : L.length = X.length + 1 := by
    have := shape_length h
    simpa using this
  have hget := shape_getElem? h X.length
  rw [List.getElem?_append_right (le_refl _)] at hget
  simp only [Nat.sub_self, List.getElem?_cons_zero, Option.map_some'] at hget
  obtain ⟨e, he⟩ : ∃ e, L[X.length]? = some e :=
    ⟨L[X.length], List.getElem?_eq_getElem (by omega)⟩
  rw [he] at hget
  simp only [Option.map_some', Option.some.injEq] at hget
  have hdrop : L.drop X.length = [e] := by
    apply List.ext_getElem?
    intro i
    rw [List.getElem?_drop]
    cases i with
    | zero => simpa using he
    | succ i =>
      simp only [List.getElem?_cons_succ, List.getElem?_nil]
      exact List.getElem?_eq_none (by omega)
  have hdata : bufferData L X.length = e.data := by
    simp [bufferData, he]
  have he2 : e = { s with data := bufferData L X.length } := by
    rw [hdata]
    cases e; cases s
    simp only [Buffer.shape, Prod.mk.injEq] at hget
    simp only [Buffer.mk.injEq]
    tauto
  constructor
  · conv_lhs => rw [← List.take_append_drop X.length L, hdrop, he2]
  · have := congrArg (List.take X.length) h
    rw [← List.map_take, ← List.map_take] at this
    simpa using this

theorem getElem?_append_single {α : Type} (X : List α) (e : α) (n : Nat) (h : X.length = n) :
    (X ++ [e])[n]? = some e := by
  subst h
  rw [List.getElem?_append_right (le_refl _)]; simp

theorem set_append_single {α : Type} (X : List α) (e e2 : α) (n : Nat) (h : X.length = n) :
    (X ++ [e]).set n e2 = X ++ [e2] := by
  subst h
  simp

/-! ## The wrappers when nothing else is outstanding -/

theorem heap_get_fresh (heap : List Cell) (a b : Cell) :
    (heap ++ [a, b])[heap.length]? = some a := by
  rw [List.getElem?_append_right (le_refl _)]; simp

theorem heap_get_fresh1 (heap : List Cell) (a b : Cell) :
    (heap ++ [a, b])[heap.length + 1]? = some b := by
  rw [List.getElem?_append_right (Nat.le_succ _)]; simp

theorem heap_set_fresh (heap : List Cell) (a b c : Cell) :
    (heap ++ [a, b]).set heap.length c = heap ++ [c, b] := by
  simp

theorem heap_set_fresh1 (heap : List Cell) (a b c : Cell) :
    (heap ++ [a, b]).set (heap.length + 1) c = heap ++ [a, c] := by
  simp

theorem map_callback_fresh (heap : List Cell) (a : Cell) (r : Bool) (st : Int) :
    wgpu_map_sync_callback st (heap.length + 1) (heap ++ [a, .wait_info ⟨r, heap.length⟩]) =
      heap ++ [.map_status st, .wait_info ⟨true, heap.length⟩] := by
  simp only [wgpu_map_sync_callback, heap_get_fresh1, heap_set_fresh, heap_set_fresh1]

theorem adapter_callback_fresh (heap : List Cell) (a : Cell) (r : Bool) (st : Int) (ad : Nat)
    (msg : Option String) :
    wgpu_request_adapter_callback st ad msg (heap.length + 1)
        (heap ++ [a, .wait_info ⟨r, heap.length⟩]) =
      heap ++ [.adapter_result ⟨st, ad, msg⟩, .wait_info ⟨true, heap.length⟩] := by
  simp only [wgpu_request_adapter_callback, heap_get_fresh1, heap_set_fresh, heap_set_fresh1]

theorem device_callback_fresh (heap : List Cell) (a : Cell) (r : Bool) (st : Int) (dv : Nat)
    (msg : Option String) :
    wgpu_request_device_callback st dv msg (heap.length + 1)
        (heap ++ [a, .wait_info ⟨r, heap.length⟩]) =
      heap ++ [.device_result ⟨st, dv, msg⟩, .wait_info ⟨true, heap.length⟩] := by
  simp only [wgpu_request_device_callback, heap_get_fresh1, heap_set_fresh, heap_set_fresh1]

theorem released_fresh (heap : List Cell) (a : Cell) (r : Bool) (res : Nat) :
    released (heap ++ [a, .wait_info ⟨r, res⟩]) (heap.length + 1) = r := by
  simp only [released, heap_get_fresh1]

theorem emscripten_sleep_single (w : World) (cb : Callback) (hp : w.pending = [cb]) :
    emscripten_sleep w = deliver cb { w with pending := [], sched := w.sched.tail } := by
  simp [emscripten_sleep, hp, Nat.mod_one]

theorem wait_released_single (info : Nat) (w : World) (cb : Callback) (hp : w.pending = [cb])
    (h0 : released w.heap info = false)
    (h1 : released (deliver cb { w with pending := [], sched := w.sched.tail }).heap info = true) :
    wait_released info 1 w = some (deliver cb { w with pending := [], sched := w.sched.tail }) := by
  simp [wait_released, h0, emscripten_sleep_single w cb hp, h1]

/-- With no other completion outstanding, `wgpu_map_buffer_sync` returns the
status the API reports, after the queue has executed; the buffer is mapped
exactly on success. -/
theorem wgpu_map_buffer_sync_quiet (buffer mode offset size : Nat) (st : Int) (w : World)
    (hq : w.pending = []) :
    wgpu_map_buffer_sync buffer mode offset size st w =
      some (st,
        { buffers :=
            if st = WGPUBufferMapAsyncStatus_Success then setMapped w.flush.buffers buffer true
            else w.flush.buffers
          queue := []
          pending := []
          sched := w.sched.tail
          heap := w.heap ++ [.map_status st, .wait_info ⟨true, w.heap.length⟩]
          trace := w.trace ++ [.BufferMapAsync buffer mode offset size (w.heap.length + 1)] }) := by
  unfold wgpu_map_buffer_sync
  simp only [wgpuBufferMapAsync, hq, List.nil_append, List.length_singleton]
  rw [wait_released_single _ _ (.map buffer st (w.heap.length + 1)) rfl
    (by simp only [released_fresh])
    (by simp only [deliver, World.flush]; split_ifs <;> simp only [map_callback_fresh, released_fresh])]
  simp only [deliver, World.flush]
  split_ifs <;> simp only [map_callback_fresh, heap_get_fresh]

/-- With no other completion outstanding, `wgpu_request_adapter_sync` returns
the reply of the API. -/
theorem wgpu_request_adapter_sync_quiet (inst options : Nat)
    (reply : wgpu_request_adapter_result) (w : World) (hq : w.pending = []) :
    wgpu_request_adapter_sync inst options reply w =
      some (reply,
        { w with
          sched := w.sched.tail
          heap := w.heap ++ [.adapter_result reply, .wait_info ⟨true, w.heap.length⟩]
          trace := w.trace ++ [.InstanceRequestAdapter inst (w.heap.length + 1)] }) := by
  unfold wgpu_request_adapter_sync
  simp only [wgpuInstanceRequestAdapter, hq, List.nil_append, List.length_singleton]
  rw [wait_released_single _ _
    (.adapter reply.status reply.adapter reply.message (w.heap.length + 1)) rfl
    (by simp only [released_fresh])
    (by simp only [deliver, adapter_callback_fresh, released_fresh])]
  simp only [deliver, adapter_callback_fresh, heap_get_fresh, hq]

/-- With no other completion outstanding, `wgpu_request_device_sync` returns
the reply of the API. -/
theorem wgpu_request_device_sync_quiet (adapter descriptor : Nat)
    (reply : wgpu_request_device_result) (w : World) (hq : w.pending = []) :
    wgpu_request_device_sync adapter descriptor reply w =
      some (reply,
        { w with
          sched := w.sched.tail
          heap := w.heap ++ [.device_result reply, .wait_info ⟨true, w.heap.length⟩]
          trace := w.trace ++ [.AdapterRequestDevice adapter (w.heap.length + 1)] }) := by
  unfold wgpu_request_device_sync
  simp only [wgpuAdapterRequestDevice, hq, List.nil_append, List.length_singleton]
  rw [wait_released_single _ _
    (.device reply.status reply.device reply.message (w.heap.length + 1)) rfl
    (by simp only [released_fresh])
    (by simp only [deliver, device_callback_fresh, released_fresh])]
  simp only [deliver, device_callback_fresh, heap_get_fresh, hq]

/-! ## The readback paths -/

/-- With no other completion outstanding, a scalar readback ends in the panic
when the mapping fails and otherwise returns with the staging buffer
destroyed and the first `size` bytes of the destination overwritten. -/
theorem gpu_scalar_from_device_quiet (ctx : futhark_context) (dst : List Byte) (src : gpu_mem)
    (offset size : Nat) (st : Int) (w : World) (hq : w.pending = []) :
    ∃ X,
      X.map Buffer.shape = w.buffers.map Buffer.shape ∧
      (readbackData w src offset size).length = size ∧
      gpu_scalar_from_device ctx dst src offset size st w =
        if st = WGPUBufferMapAsyncStatus_Success then
          .returns (some FUTHARK_SUCCESS)
            ({ buffers := X ++ [{ readbackBuffer size with
                  data := readbackData w src offset size, destroyed := true }]
               queue := []
               pending := []
               sched := w.sched.tail
               heap := w.heap ++ [.map_status st, .wait_info ⟨true, w.heap.length⟩]
               trace := w.trace ++ readbackTrace w src offset size ++
                 [.BufferUnmap w.buffers.length, .BufferDestroy w.buffers.length] },
              memcpy dst (readRange (readbackData w src offset size) 0 size) size)
        else
          .panics
            (futhark_panic (-1) "Failed to read scalar from device memory with error %d\n"
              [.int st])
            ({ buffers := X ++ [{ readbackBuffer size with
                  data := readbackData w src offset size }]
               queue := []
               pending := []
               sched := w.sched.tail
               heap := w.heap ++ [.map_status st, .wait_info ⟨true, w.heap.length⟩]
               trace := w.trace ++ readbackTrace w src offset size },
              dst) := by
  have hsh : (World.flush (wgpuQueueSubmit 0
      [[.copyBufferToBuffer src offset w.buffers.length 0 size]]
      (wgpuDeviceCreateBuffer 0
        ⟨some "tmp_readback", size, WGPUBufferUsage_MapRead ||| WGPUBufferUsage_CopyDst⟩
        w).2)).buffers.map Buffer.shape = (w.buffers ++ [readbackBuffer size]).map Buffer.shape :=
    foldl_execCmd_shape _ _
  obtain ⟨hL, hX⟩ := staging_decompose w.buffers (readbackBuffer size) _ hsh
  have hXl := shape_length hX
  refine ⟨_, hX, ?_, ?_⟩
  · unfold readbackData
    rw [bufferData_length, shape_bufferSize hsh]
    simp [bufferSize, getElem?_append_single, readbackBuffer]
  · unfold gpu_scalar_from_device
    simp only [wgpuDeviceCreateCommandEncoder,
      wgpuCommandEncoderCopyBufferToBuffer, wgpuCommandEncoderFinish, List.nil_append]
    rw [wgpu_map_buffer_sync_quiet]
    swap
    · simpa [wgpuQueueSubmit, wgpuDeviceCreateBuffer] using hq
    have hD : readbackData w src offset size = bufferData (World.flush (wgpuQueueSubmit 0
      [[.copyBufferToBuffer src offset w.buffers.length 0 size]]
      (wgpuDeviceCreateBuffer 0
        ⟨some "tmp_readback", size, WGPUBufferUsage_MapRead ||| WGPUBufferUsage_CopyDst⟩
        w).2)).buffers w.buffers.length := rfl
    rw [← hD] at hL
    simp only [wgpuQueueSubmit, wgpuDeviceCreateBuffer, World.flush] at hL hXl
    simp only [wgpuQueueSubmit, wgpuDeviceCreateBuffer, World.flush]
    clear hsh hX hD
    generalize List.foldl execCmd _ _ = L at hL hXl ⊢
    generalize List.take w.buffers.length L = X at hL hXl
    subst hL
    by_cases hst : st = WGPUBufferMapAsyncStatus_Success
    · simp [hst, setMapped, wgpuBufferUnmap, wgpuBufferDestroy, wgpuBufferGetConstMappedRange,
        getElem?_append_single _ _ _ hXl, set_append_single _ _ _ _ hXl, readbackTrace,
        readbackBuffer]
    · simp [hst, readbackTrace, readbackBuffer]

/-- For `nbytes > 0` the bulk readback is the scalar readback of
`to_uint64 nbytes` bytes from `offset`, with its own panic message. -/
theorem memcpy_gpu2host_eq_scalar (ctx : futhark_context) (sync : Bool) (dst : List Byte)
    (dst_offset : Int) (src : gpu_mem) (src_offset nbytes : Int) (offset : Nat) (st : Int)
    (w : World) (hn : 0 < nbytes) :
    memcpy_gpu2host ctx sync dst dst_offset src src_offset nbytes offset st w =
      match gpu_scalar_from_device ctx dst src offset (to_uint64 nbytes) st w with
      | .returns v s => .returns v s
      | .panics p s =>
        .panics { p with fmt := "Failed to copy from device memory with error %d\n" } s
      | .hangs => .hangs := by
  unfold memcpy_gpu2host gpu_scalar_from_device
  simp only [not_le.2 hn, if_false]
  cases wgpu_map_buffer_sync _ _ _ _ _ _ with
  | none => rfl
  | some r =>
    obtain ⟨status, w2⟩ := r
    simp only []
    split_ifs <;> rfl

/-! ## Zero-length transfers, device copy, stubs -/

/-- C2. A bulk transfer of zero bytes is a no-op in both directions: for every
context, buffer, offsets, sync flag and machine state, `memcpy_host2gpu` and
`memcpy_gpu2host` with `nbytes = 0` return `FUTHARK_SUCCESS` and leave the
whole machine (buffers, queue, call trace: no command submitted, no staging
buffer created) and the host destination unchanged. -/
theorem zero_length_transfer_noop (ctx : futhark_context) (sync : Bool) (buf : gpu_mem)
    (dst_offset src_offset : Int) (host : List Byte) (offset : Nat) (st : Int) (w : World) :
    memcpy_host2gpu ctx sync buf dst_offset host src_offset 0 w = (some FUTHARK_SUCCESS, w) ∧
      memcpy_gpu2host ctx sync host dst_offset buf src_offset 0 offset st w =
        .returns (some FUTHARK_SUCCESS) (w, host) := by
  constructor
  · simp [memcpy_host2gpu]
  · simp [memcpy_gpu2host]

/-- C3. Device copy: for live buffers `A`, `B` and ranges `[a, a+n)` of `A`,
`[b, b+n)` of `B` in bounds (the arguments being `int64_t` values), the call
`gpu_memcpy(ctx, B, b, A, a, n)` returns `FUTHARK_SUCCESS`, appends exactly the
one command "copy `n` bytes from `A` at `a` to `B` at `b`" to the queue and
changes nothing else (it does not wait: no command has executed, the scheduler
has not run); and if `A` holds `P` at `[a, a+n)` once the commands queued so
far have executed, then after in-order execution of the queue `B` holds
exactly `P` at `[b, b+n)`. -/
theorem gpu_memcpy_device_copy (ctx : futhark_context) (w : World) (A B : gpu_mem)
    (a b n : Nat) (P : List Byte)
    (hA : live w.buffers A = true) (hB : live w.buffers B = true)
    (ha : a + n ≤ bufferSize w.buffers A) (hb : b + n ≤ bufferSize w.buffers B)
    (h64 : a < 2 ^ 63 ∧ b < 2 ^ 63 ∧ n < 2 ^ 63)
    (hP : readRange (bufferData w.flush.buffers A) a n = P) :
    gpu_memcpy ctx B b A a n w =
        (some FUTHARK_SUCCESS,
          { w with
            queue := w.queue ++ [.copyBufferToBuffer A a B b n]
            trace := w.trace ++ [.QueueSubmit [.copyBufferToBuffer A a B b n]] }) ∧
      readRange (bufferData (gpu_memcpy ctx B b A a n w).2.flush.buffers B) b n = P := by
  obtain ⟨h1, h2, h3⟩ := h64
  have hcall : gpu_memcpy ctx B b A a n w =
      (some FUTHARK_SUCCESS,
        { w with
          queue := w.queue ++ [.copyBufferToBuffer A a B b n]
          trace := w.trace ++ [.QueueSubmit [.copyBufferToBuffer A a B b n]] }) := by
    simp [gpu_memcpy, wgpuDeviceCreateCommandEncoder, wgpuCommandEncoderCopyBufferToBuffer,
      wgpuCommandEncoderFinish, wgpuQueueSubmit, to_uint64_natCast a h1, to_uint64_natCast b h2,
      to_uint64_natCast n h3, validCmd,
      hA, hB, ha, hb]
  refine ⟨hcall, ?_⟩
  rw [hcall]
  have hsh := foldl_execCmd_shape w.queue w.buffers
  have hAlt : A < (w.queue.foldl execCmd w.buffers).length := by
    rw [shape_length hsh]; exact live_lt hA
  have hBlt : B < (w.queue.foldl execCmd w.buffers).length := by
    rw [shape_length hsh]; exact live_lt hB
  have ha2 : a + n ≤ bufferSize (w.queue.foldl execCmd w.buffers) A := by
    rw [shape_bufferSize hsh]; exact ha
  have hb2 : b + n ≤ bufferSize (w.queue.foldl execCmd w.buffers) B := by
    rw [shape_bufferSize hsh]; exact hb
  simp only [World.flush, List.foldl_append, List.foldl_cons, List.foldl_nil]
  rw [bufferData_exec_copy _ A a B b n hAlt hBlt ha2 hb2]
  simp only [World.flush] at hP
  rw [hP]
  have hPl : P.length = n := by
    rw [← hP]
    exact readRange_length _ _ _ (by rw [bufferData_length]; exact ha2)
  have := readRange_writeRange (bufferData (w.queue.foldl execCmd w.buffers) B) b P
    (by rw [bufferData_length, hPl]; exact hb2)
  rw [hPl] at this
  exact this

/-- Witness of C3: two 4-byte buffers, the first holding 1, 2, 3, 4; bytes
`[1, 3)` are copied to offset 2 of the second. -/
theorem gpu_memcpy_device_copy_witness :
    readRange (bufferData
      (gpu_memcpy futhark_context.start 1 2 0 1 2 World.twoBuffers).2.flush.buffers 1) 2 2
      = [2, 3] :=
  (gpu_memcpy_device_copy futhark_context.start World.twoBuffers 0 1 1 2 2 [2, 3]
    (by decide) (by decide) (by decide) (by decide) (by norm_num) (by decide)).2

/-- C6 (evaluation). Four of the `int`-returning operations reach the end of
their body without a `return` statement and so return no value:
`gpu_scalar_to_device` and `gpu_launch_kernel` on every call,
`memcpy_host2gpu` whenever it writes (here one byte), and
`backend_context_setup` when both requests succeed (here from the initial
machine). -/
theorem return_statement_missing :
    (∀ ctx dst offset size src w, (gpu_scalar_to_device ctx dst offset size src w).1 = none) ∧
    (∀ ctx sync dst dst_offset src src_offset w,
      (memcpy_host2gpu ctx sync dst dst_offset src src_offset 1 w).1 = none) ∧
    (∀ ctx kernel name grid block shared num_args args args_sizes w,
      (gpu_launch_kernel ctx kernel name grid block shared num_args args args_sizes w).1
        = none) ∧
    (∃ s, backend_context_setup futhark_context.start ⟨0, 7, none⟩ ⟨0, 9, none⟩ World.start
        = .returns none s) := by
  refine ⟨fun _ _ _ _ _ _ => rfl, fun _ _ _ _ _ _ _ => ?_, fun _ _ _ _ _ _ _ _ _ _ => rfl,
    ⟨_, rfl⟩⟩
  simp [memcpy_host2gpu]

/-- C9 (evaluation). `gpu_create_kernel` never assigns `*kernel` and builds
nothing: the descriptor slot holds after the call what it held before, for
every name, and the context changes in its log only. Two requests for
different names starting from `NULL` slots both end with `NULL`. -/
theorem gpu_create_kernel_builds_nothing :
    (∀ ctx kernel name,
      (gpu_create_kernel ctx kernel name).2 = kernel ∧
        { (gpu_create_kernel ctx kernel name).1 with log := ctx.log } = ctx) ∧
    (gpu_create_kernel futhark_context.start NULL "a").2 = NULL ∧
    (gpu_create_kernel futhark_context.start NULL "b").2 = NULL := by
  refine ⟨fun ctx kernel name => ⟨rfl, ?_⟩, rfl, rfl⟩
  unfold gpu_create_kernel
  split_ifs <;> rfl

/-- C10 (evaluation). `memcpy_gpu2host` ignores `dst_offset`: reading the two
bytes 1, 2 of a device buffer into a four-byte host array at `dst_offset = 2`
overwrites host bytes 0 and 1 and leaves bytes 2 and 3 as they were. -/
theorem memcpy_gpu2host_ignores_dst_offset :
    ∃ w, memcpy_gpu2host futhark_context.start true [0, 0, 0, 0] 2 0 0 2 0
        WGPUBufferMapAsyncStatus_Success World.oneBuffer
      = .returns (some FUTHARK_SUCCESS) (w, [1, 2, 0, 0]) :=
  ⟨_, rfl⟩

/-! ## Readback: failure and staging buffer -/

theorem live_append_destroyed (X : List Buffer) (e : Buffer) (he : e.destroyed = true) (b : Nat) :
    live (X ++ [e]) b = live X b := by
  unfold live
  rcases Nat.lt_or_ge b X.length with h | h
  · rw [List.getElem?_append_left h]
  · rw [List.getElem?_append_right h, List.getElem?_eq_none h]
    cases hb : b - X.length with
    | zero => simp [he]
    | succ k => simp

/-- C5. With no other completion outstanding, a device-to-host read ends in
`futhark_panic` exactly when the status reported for the staging-buffer
mapping is not `WGPUBufferMapAsyncStatus_Success`: `memcpy_gpu2host` with
`nbytes > 0` and `gpu_scalar_from_device` then panic with exit code -1, their
own format string and the status code as its argument, and the host
destination is still `dst`; on success they return `FUTHARK_SUCCESS`. -/
theorem mapping_failure_is_fatal (ctx : futhark_context) (sync : Bool) (dst : List Byte)
    (dst_offset : Int) (src : gpu_mem) (src_offset nbytes : Int) (offset soffset size : Nat)
    (st : Int) (w : World) (hn : 0 < nbytes) (hq : w.pending = []) :
    ((∃ p s, memcpy_gpu2host ctx sync dst dst_offset src src_offset nbytes offset st w
        = .panics p s) ↔ st ≠ WGPUBufferMapAsyncStatus_Success) ∧
    (st ≠ WGPUBufferMapAsyncStatus_Success →
      ∃ w2, memcpy_gpu2host ctx sync dst dst_offset src src_offset nbytes offset st w =
        .panics (futhark_panic (-1) "Failed to copy from device memory with error %d\n"
          [.int st]) (w2, dst)) ∧
    (st = WGPUBufferMapAsyncStatus_Success →
      ∃ w2 dst2, memcpy_gpu2host ctx sync dst dst_offset src src_offset nbytes offset st w =
        .returns (some FUTHARK_SUCCESS) (w2, dst2)) ∧
    ((∃ p s, gpu_scalar_from_device ctx dst src soffset size st w = .panics p s) ↔
      st ≠ WGPUBufferMapAsyncStatus_Success) ∧
    (st ≠ WGPUBufferMapAsyncStatus_Success →
      ∃ w2, gpu_scalar_from_device ctx dst src soffset size st w =
        .panics (futhark_panic (-1) "Failed to read scalar from device memory with error %d\n"
          [.int st]) (w2, dst)) ∧
    (st = WGPUBufferMapAsyncStatus_Success →
      ∃ w2 dst2, gpu_scalar_from_device ctx dst src soffset size st w =
        .returns (some FUTHARK_SUCCESS) (w2, dst2)) := by
  obtain ⟨X, -, -, h1⟩ :=
    gpu_scalar_from_device_quiet ctx dst src offset (to_uint64 nbytes) st w hq
  obtain ⟨Y, -, -, h2⟩ := gpu_scalar_from_device_quiet ctx dst src soffset size st w hq
  have h3 := memcpy_gpu2host_eq_scalar ctx sync dst dst_offset src src_offset nbytes offset st w hn
  rw [h1] at h3
  by_cases hst : st = WGPUBufferMapAsyncStatus_Success
  · simp only [hst, if_true] at h2 h3
    simp only [hst] at *
    refine ⟨?_, fun h => absurd rfl h, fun _ => ⟨_, _, h3⟩, ?_, fun h => absurd rfl h,
      fun _ => ⟨_, _, h2⟩⟩
    · rw [h3]; simp
    · rw [h2]; simp
  · simp only [hst, if_false] at h2 h3
    refine ⟨?_, fun _ => ⟨_, h3⟩, fun h => absurd h hst, ?_, fun _ => ⟨_, h2⟩,
      fun h => absurd h hst⟩
    · rw [h3]; simp [hst]
    · rw [h2]; simp [hst]

/-- Witness of C5: a two-byte read from the one-buffer machine whose mapping is
reported with status 3 panics with that status and leaves the host bytes. -/
theorem mapping_failure_is_fatal_witness :
    ∃ w2, memcpy_gpu2host futhark_context.start true [9, 9] 0 0 0 2 0 3 World.oneBuffer =
      .panics (futhark_panic (-1) "Failed to copy from device memory with error %d\n"
        [.int 3]) (w2, [9, 9]) :=
  (mapping_failure_is_fatal futhark_context.start true [9, 9] 0 0 0 2 0 0 2 3 World.oneBuffer
    (by decide) rfl).2.1 (by decide)

/-- C8. With no other completion outstanding, a device-to-host read whose
mapping succeeds (`memcpy_gpu2host` with `0 < nbytes`, an `int64_t`, and
`gpu_scalar_from_device`) returns `FUTHARK_SUCCESS` having made exactly the
calls: create one buffer of exactly the requested size with usage
`MapRead | CopyDst`, submit the copy, map, unmap that buffer, destroy that
buffer. Afterwards the buffer table is the old one (same label, usage, size
and flags for every handle) followed by the staging buffer, unmapped and
destroyed, so the live handles are those from before the call. -/
theorem staging_buffer_lifecycle (ctx : futhark_context) (sync : Bool) (dst : List Byte)
    (dst_offset : Int) (src : gpu_mem) (src_offset nbytes : Int) (offset soffset size : Nat)
    (w : World) (hn : 0 < nbytes) (h64 : nbytes < 2 ^ 63) (hq : w.pending = []) :
    (∃ w2 dst2,
      memcpy_gpu2host ctx sync dst dst_offset src src_offset nbytes offset
          WGPUBufferMapAsyncStatus_Success w = .returns (some FUTHARK_SUCCESS) (w2, dst2) ∧
      w2.trace = w.trace ++
        [.DeviceCreateBuffer
            ⟨some "tmp_readback", nbytes.toNat,
              WGPUBufferUsage_MapRead ||| WGPUBufferUsage_CopyDst⟩ w.buffers.length,
          .QueueSubmit [.copyBufferToBuffer src offset w.buffers.length 0 nbytes.toNat],
          .BufferMapAsync w.buffers.length WGPUMapMode_Read 0 nbytes.toNat (w.heap.length + 1),
          .BufferUnmap w.buffers.length,
          .BufferDestroy w.buffers.length] ∧
      w2.buffers.map Buffer.shape = w.buffers.map Buffer.shape ++
        [(some "tmp_readback", WGPUBufferUsage_MapRead ||| WGPUBufferUsage_CopyDst,
          nbytes.toNat, false, true)] ∧
      ∀ b, live w2.buffers b = live w.buffers b) ∧
    (∃ w2 dst2,
      gpu_scalar_from_device ctx dst src soffset size WGPUBufferMapAsyncStatus_Success w =
        .returns (some FUTHARK_SUCCESS) (w2, dst2) ∧
      w2.trace = w.trace ++
        [.DeviceCreateBuffer
            ⟨some "tmp_readback", size,
              WGPUBufferUsage_MapRead ||| WGPUBufferUsage_CopyDst⟩ w.buffers.length,
          .QueueSubmit [.copyBufferToBuffer src soffset w.buffers.length 0 size],
          .BufferMapAsync w.buffers.length WGPUMapMode_Read 0 size (w.heap.length + 1),
          .BufferUnmap w.buffers.length,
          .BufferDestroy w.buffers.length] ∧
      w2.buffers.map Buffer.shape = w.buffers.map Buffer.shape ++
        [(some "tmp_readback", WGPUBufferUsage_MapRead ||| WGPUBufferUsage_CopyDst,
          size, false, true)] ∧
      ∀ b, live w2.buffers b = live w.buffers b) := by
  have key : ∀ (off sz : Nat), ∃ w2 dst2,
      gpu_scalar_from_device ctx dst src off sz WGPUBufferMapAsyncStatus_Success w =
        .returns (some FUTHARK_SUCCESS) (w2, dst2) ∧
      w2.trace = w.trace ++
        [.DeviceCreateBuffer
            ⟨some "tmp_readback", sz,
              WGPUBufferUsage_MapRead ||| WGPUBufferUsage_CopyDst⟩ w.buffers.length,
          .QueueSubmit [.copyBufferToBuffer src off w.buffers.length 0 sz],
          .BufferMapAsync w.buffers.length WGPUMapMode_Read 0 sz (w.heap.length + 1),
          .BufferUnmap w.buffers.length,
          .BufferDestroy w.buffers.length] ∧
      w2.buffers.map Buffer.shape = w.buffers.map Buffer.shape ++
        [(some "tmp_readback", WGPUBufferUsage_MapRead ||| WGPUBufferUsage_CopyDst,
          sz, false, true)] ∧
      ∀ b, live w2.buffers b = live w.buffers b := by
    intro off sz
    obtain ⟨X, hX, hD, h⟩ :=
      gpu_scalar_from_device_quiet ctx dst src off sz WGPUBufferMapAsyncStatus_Success w hq
    rw [if_pos rfl] at h
    refine ⟨_, _, h, ?_, ?_, ?_⟩
    · simp [readbackTrace]
    · simp [hX, Buffer.shape, readbackBuffer, hD]
    · intro b
      simp only []
      rw [live_append_destroyed _ _ rfl, shape_live hX]
  refine ⟨?_, key soffset size⟩
  obtain ⟨w2, dst2, h, hrest⟩ := key offset (to_uint64 nbytes)
  have h3 := memcpy_gpu2host_eq_scalar ctx sync dst dst_offset src src_offset nbytes offset
    WGPUBufferMapAsyncStatus_Success w hn
  rw [h] at h3
  rw [to_uint64_of_range nbytes (le_of_lt hn) h64] at hrest
  exact ⟨w2, dst2, h3, hrest⟩

/-- Witness of C8: a two-byte read from the one-buffer machine. -/
theorem staging_buffer_lifecycle_witness :
    ∃ w2 dst2,
      gpu_scalar_from_device futhark_context.start [9, 9] 0 0 2
          WGPUBufferMapAsyncStatus_Success World.oneBuffer =
        .returns (some FUTHARK_SUCCESS) (w2, dst2) ∧
      w2.trace = World.oneBuffer.trace ++
        [.DeviceCreateBuffer
            ⟨some "tmp_readback", 2,
              WGPUBufferUsage_MapRead ||| WGPUBufferUsage_CopyDst⟩ World.oneBuffer.buffers.length,
          .QueueSubmit [.copyBufferToBuffer 0 0 World.oneBuffer.buffers.length 0 2],
          .BufferMapAsync World.oneBuffer.buffers.length WGPUMapMode_Read 0 2
            (World.oneBuffer.heap.length + 1),
          .BufferUnmap World.oneBuffer.buffers.length,
          .BufferDestroy World.oneBuffer.buffers.length] ∧
      w2.buffers.map Buffer.shape = World.oneBuffer.buffers.map Buffer.shape ++
        [(some "tmp_readback", WGPUBufferUsage_MapRead ||| WGPUBufferUsage_CopyDst,
          2, false, true)] ∧
      ∀ b, live w2.buffers b = live World.oneBuffer.buffers b :=
  (staging_buffer_lifecycle futhark_context.start true [9, 9] 0 0 0 2 0 0 2 World.oneBuffer
    (by decide) (by norm_num) rfl).2

/-! ## Context setup: the adapter failure -/

/-- C4. With no other completion outstanding, when the adapter request is
answered with a status other than `WGPURequestAdapterStatus_Success`,
`backend_context_setup` ends in `futhark_panic` with exit code -1 and the
status code as first argument, followed by the message exactly when the
message is not NULL (and the format string with `Message: %s` in that case
only). Up to the panic the only API calls are `wgpuCreateInstance` and
`wgpuInstanceRequestAdapter`: no device is requested, and `ctx->adapter`,
`ctx->device` and `ctx->queue` are never assigned. -/
theorem adapter_failure_is_fatal (ctx : futhark_context)
    (adapter_reply : wgpu_request_adapter_result) (device_reply : wgpu_request_device_result)
    (w : World) (hq : w.pending = [])
    (hs : adapter_reply.status ≠ WGPURequestAdapterStatus_Success) :
    backend_context_setup ctx adapter_reply device_reply w =
      .panics
        (futhark_panic (-1)
          (if adapter_reply.message.isSome then
            "Could not get WebGPU adapter, status: %d\nMessage: %s\n"
          else "Could not get WebGPU adapter, status: %d\n")
          (.int adapter_reply.status :: adapter_reply.message.toList.map PanicArg.str))
        ({ ctx with kernels := NULL, inst := 1 },
          { w with
            sched := w.sched.tail
            heap := w.heap ++ [.adapter_result adapter_reply, .wait_info ⟨true, w.heap.length⟩]
            trace := w.trace ++
              [.CreateInstance, .InstanceRequestAdapter 1 (w.heap.length + 1)] }) := by
  unfold backend_context_setup
  simp only [wgpuCreateInstance, World.log]
  rw [wgpu_request_adapter_sync_quiet]
  swap
  · exact hq
  simp only [hs, ne_eq, not_false_eq_true, if_true]
  cases hm : adapter_reply.message <;> simp

/-- Witness of C4: the adapter request fails with status 2 and the message
`no adapter`. -/
theorem adapter_failure_is_fatal_witness :
    backend_context_setup futhark_context.start ⟨2, 0, some "no adapter"⟩ ⟨0, 5, none⟩
        World.start =
      .panics
        (futhark_panic (-1) "Could not get WebGPU adapter, status: %d\nMessage: %s\n"
          [.int 2, .str "no adapter"])
        ({ futhark_context.start with kernels := NULL, inst := 1 },
          { World.start with
            heap := [.adapter_result ⟨2, 0, some "no adapter"⟩, .wait_info ⟨true, 0⟩]
            trace := [.CreateInstance, .InstanceRequestAdapter 1 1] }) :=
  adapter_failure_is_fatal futhark_context.start ⟨2, 0, some "no adapter"⟩ ⟨0, 5, none⟩
    World.start rfl (by decide)

/-! ## Round trip -/

theorem getElem?_append_two_fst {α : Type} (X : List α) (a b : α) :
    (X ++ [a] ++ [b])[X.length]? = some a := by
  rw [List.append_assoc, List.getElem?_append_right (le_refl _)]; simp

theorem getElem?_append_two_snd {α : Type} (X : List α) (a b : α) :
    (X ++ [a] ++ [b])[X.length + 1]? = some b := by
  rw [List.append_assoc, List.getElem?_append_right (Nat.le_succ _)]; simp

theorem round_trip_data (X : List Buffer) (q : List QueueCmd) (new stg : Buffer) (B : List Byte)
    (hnew : new.data.length = B.length) (hstg : stg.data.length = B.length) :
    bufferData
      ((q ++ [QueueCmd.writeBuffer X.length 0 B] ++
          [QueueCmd.copyBufferToBuffer X.length 0 (X.length + 1) 0 B.length]).foldl execCmd
        (X ++ [new] ++ [stg])) (X.length + 1) = B := by
  rw [List.foldl_append, List.foldl_append]
  simp only [List.foldl_cons, List.foldl_nil]
  have hsh0 := foldl_execCmd_shape q (X ++ [new] ++ [stg])
  generalize List.foldl execCmd (X ++ [new] ++ [stg]) q = L0 at hsh0 ⊢
  have hlen0 : L0.length = X.length + 2 := by
    rw [shape_length hsh0]; simp
  have hsz0 : bufferSize L0 X.length = B.length := by
    rw [shape_bufferSize hsh0]; simp only [bufferSize, getElem?_append_two_fst, hnew]
  have hsz1 : bufferSize L0 (X.length + 1) = B.length := by
    rw [shape_bufferSize hsh0]; simp only [bufferSize, getElem?_append_two_snd, hstg]
  have hw := bufferData_exec_write L0 X.length 0 B (by omega) (by omega)
  rw [writeRange_all _ _ (by rw [bufferData_length, hsz0])] at hw
  have hsh1 := execCmd_shape L0 (.writeBuffer X.length 0 B)
  generalize execCmd L0 (.writeBuffer X.length 0 B) = L1 at hsh1 hw ⊢
  have hlen1 : L1.length = X.length + 2 := by
    rw [shape_length hsh1]; exact hlen0
  rw [bufferData_exec_copy L1 X.length 0 (X.length + 1) 0 B.length (by omega) (by omega)
    (by rw [shape_bufferSize hsh1, hsz0]; omega) (by rw [shape_bufferSize hsh1, hsz1]; omega)]
  rw [hw, readRange_all, writeRange_all]
  rw [bufferData_length, shape_bufferSize hsh1, hsz1]

theorem to_uint64_zero : to_uint64 0 = 0 := by
  simp [to_uint64]

theorem valid_write_fresh (X : List Buffer) (new : Buffer) (B : List Byte)
    (hd : new.destroyed = false) (hl : new.data.length = B.length) :
    validCmd (X ++ [new]) (.writeBuffer X.length 0 B) = true := by
  simp [validCmd, live, bufferSize, getElem?_append_single, hd, hl]

theorem valid_copy_fresh (X : List Buffer) (new stg : Buffer) (n : Nat)
    (hd : new.destroyed = false) (hl : new.data.length = n)
    (hd2 : stg.destroyed = false) (hl2 : stg.data.length = n) :
    validCmd (X ++ [new] ++ [stg]) (.copyBufferToBuffer X.length 0 (X.length + 1) 0 n) = true := by
  simp only [validCmd, live, bufferSize, getElem?_append_two_fst, getElem?_append_two_snd, hd,
    hl, hd2, hl2]
  simp

theorem memcpy_all (host B : List Byte) (h : host.length = B.length) :
    memcpy host B B.length = B := by
  simp [memcpy, ← h]

/-- C1. Round trip, over the device model (queue commands execute in
submission order) with no other completion outstanding and the staging-buffer
mapping reported as successful: for every byte sequence `B` (its length an
`int64_t`), both values of the two sync flags, and every host array `host` of
the same length, allocating `B.length` bytes with `gpu_alloc_actual`,
`memcpy_host2gpu` of `B` at offset 0 and `memcpy_gpu2host` of `B.length` bytes
from offset 0 returns `FUTHARK_SUCCESS` and leaves the host array equal to
`B`. -/
theorem round_trip_returns_source (ctx : futhark_context) (sync_up sync_down : Bool)
    (B host : List Byte) (w : World) (hlen : host.length = B.length)
    (h64 : B.length < 2 ^ 63) (hq : w.pending = []) :
    ∃ w2, round_trip ctx sync_up sync_down B host WGPUBufferMapAsyncStatus_Success w =
      .returns (some FUTHARK_SUCCESS) (w2, B) := by
  unfold round_trip
  rcases Nat.eq_zero_or_pos B.length with h0 | hpos
  · have hB : B = [] := List.length_eq_zero.1 h0
    have hH : host = [] := List.length_eq_zero.1 (by rw [hlen, h0])
    subst hB hH
    simp only [gpu_alloc_actual, memcpy_host2gpu, memcpy_gpu2host, List.length_nil,
      Nat.cast_zero, le_refl, if_true]
    exact ⟨_, rfl⟩
  · have hn : (0 : Int) < (B.length : Int) := by exact_mod_cast hpos
    have key : ∀ (w2 : World) (mem : Nat), w2.pending = [] →
        readbackData w2 mem 0 B.length = B →
        ∃ w3, memcpy_gpu2host ctx sync_down host 0 mem 0 B.length 0
          WGPUBufferMapAsyncStatus_Success w2 = .returns (some FUTHARK_SUCCESS) (w3, B) := by
      intro w2 mem hq2 hD
      rw [memcpy_gpu2host_eq_scalar _ _ _ _ _ _ _ _ _ _ hn, to_uint64_natCast _ h64]
      obtain ⟨Y, -, -, h⟩ := gpu_scalar_from_device_quiet ctx host mem 0 B.length
        WGPUBufferMapAsyncStatus_Success w2 hq2
      rw [h, if_pos rfl, hD, readRange_all, memcpy_all host B hlen]
      exact ⟨_, rfl⟩
    simp only [gpu_alloc_actual, memcpy_host2gpu, not_le.2 hn, if_false]
    apply key
    · simpa [wgpuQueueWriteBuffer, wgpuDeviceCreateBuffer] using hq
    · unfold readbackData
      simp only [wgpuQueueSubmit, wgpuQueueWriteBuffer, wgpuDeviceCreateBuffer, World.flush,
        to_uint64_zero, to_uint64_natCast _ h64, readRange_all, List.length_append,
        List.length_singleton, List.flatten_cons, List.flatten_nil, List.append_nil,
        List.all_cons, List.all_nil, Bool.and_true]
      rw [if_pos (valid_write_fresh _ _ _ rfl (by simp)),
        if_pos (valid_copy_fresh _ _ _ _ rfl (by simp) rfl (by simp))]
      exact round_trip_data _ _ _ _ _ (by simp) (by simp)

/-- Witness of C1 (the concrete scenario of the spec): 1024 bytes, every one
`0xAB`, through the initial machine. -/
theorem round_trip_returns_source_witness :
    ∃ w2, round_trip futhark_context.start true false (List.replicate 1024 0xAB)
        (List.replicate 1024 0) WGPUBufferMapAsyncStatus_Success World.start =
      .returns (some FUTHARK_SUCCESS) (w2, List.replicate 1024 0xAB) :=
  round_trip_returns_source futhark_context.start true false (List.replicate 1024 0xAB)
    (List.replicate 1024 0) World.start (by simp only [List.length_replicate])
    (by simp only [List.length_replicate]; norm_num) rfl

/-! ## The bridge: isolation of outstanding operations -/

/-- The two requests of `World.twoPending` are isolated. -/
theorem twoPending_isolated : Isolated World.twoPending.pending World.twoPending := by
  unfold Isolated
  refine ⟨by decide, by decide, by decide, by decide, by decide, by decide, by decide⟩

theorem run_eq (cb : Callback) (heap : List Cell) :
    cb.run heap =
      match heap[cb.userdata]? with
      | some (.wait_info i) =>
        (heap.set i.result cb.value).set cb.userdata (.wait_info { i with released := true })
      | _ => heap := by
  cases cb <;> rfl

theorem deliver_heap (cb : Callback) (w : World) : (deliver cb w).heap = cb.run w.heap := by
  cases cb with
  | map b s u => simp only [deliver, Callback.run, World.flush]; split_ifs <;> rfl
  | adapter s a m u => rfl
  | device s d m u => rfl

theorem deliver_pending (cb : Callback) (w : World) : (deliver cb w).pending = w.pending := by
  cases cb with
  | map b s u => simp only [deliver, World.flush]; split_ifs <;> rfl
  | adapter s a m u => rfl
  | device s d m u => rfl

theorem resultOf_eq_some {heap : List Cell} {a r : Nat} (h : resultOf heap a = some r) :
    ∃ rel, heap[a]? = some (.wait_info ⟨rel, r⟩) := by
  unfold resultOf at h
  split at h
  · rename_i i hi
    simp only [Option.some.injEq] at h
    subst h
    exact ⟨i.released, hi⟩
  · simp at h

theorem resultOf_lt {heap : List Cell} {a r : Nat} (h : resultOf heap a = some r) :
    a < heap.length := by
  obtain ⟨rel, h⟩ := resultOf_eq_some h
  exact (List.getElem?_eq_some.1 h).1

theorem run_length (cb : Callback) (heap : List Cell) : (cb.run heap).length = heap.length := by
  rw [run_eq]
  split <;> simp

/-- Frame of a callback: a cell that is neither the handle it was given nor
the slot that handle points to is not written. -/
theorem run_frame (cb : Callback) (heap : List Cell) (a : Nat) (h1 : a ≠ cb.userdata)
    (h2 : resultOf heap cb.userdata ≠ some a) : (cb.run heap)[a]? = heap[a]? := by
  rw [run_eq]
  split
  · rename_i i hi
    have hr : i.result ≠ a := by
      intro h
      apply h2
      simp [resultOf, hi, h]
    rw [List.getElem?_set_ne (Ne.symm h1), List.getElem?_set_ne hr]
  · rfl

theorem run_handle (cb : Callback) (heap : List Cell) (r : Nat)
    (h : resultOf heap cb.userdata = some r) :
    (cb.run heap)[cb.userdata]? = some (.wait_info ⟨true, r⟩) := by
  obtain ⟨rel, hi⟩ := resultOf_eq_some h
  rw [run_eq, hi]
  simp only []
  rw [List.getElem?_set_self (by rw [List.length_set]; exact resultOf_lt h)]

theorem run_slot (cb : Callback) (heap : List Cell) (r : Nat)
    (h : resultOf heap cb.userdata = some r) (hne : r ≠ cb.userdata) (hlt : r < heap.length) :
    (cb.run heap)[r]? = some cb.value := by
  obtain ⟨rel, hi⟩ := resultOf_eq_some h
  rw [run_eq, hi]
  simp only []
  rw [List.getElem?_set_ne (Ne.symm hne), List.getElem?_set_self hlt]

theorem run_resultOf (cb : Callback) (heap : List Cell) (a r : Nat)
    (h : resultOf heap cb.userdata = some r) (ha : a ≠ r) :
    resultOf (cb.run heap) a = resultOf heap a := by
  by_cases hu : a = cb.userdata
  · subst hu
    rw [h]
    simp only [resultOf, run_handle cb heap r h]
  · unfold resultOf
    rw [run_frame cb heap a hu (by rw [h]; simpa using Ne.symm ha)]

theorem run_released (cb : Callback) (heap : List Cell) (a r : Nat)
    (h : resultOf heap cb.userdata = some r) (ha : a ≠ r) (hu : a ≠ cb.userdata) :
    released (cb.run heap) a = released heap a := by
  unfold released
  rw [run_frame cb heap a hu (by rw [h]; simpa using Ne.symm ha)]

theorem run_released_handle (cb : Callback) (heap : List Cell) (r : Nat)
    (h : resultOf heap cb.userdata = some r) :
    released (cb.run heap) cb.userdata = true := by
  simp only [released, run_handle cb heap r h]

theorem emscripten_sleep_pending (w : World) (hp : w.pending ≠ []) :
    ∃ (i : Nat) (hi : i < w.pending.length),
      emscripten_sleep w =
        deliver w.pending[i] { w with pending := w.pending.eraseIdx i, sched := w.sched.tail } := by
  have hpos : 0 < w.pending.length := List.length_pos.2 hp
  have hi : w.sched.headD 0 % w.pending.length < w.pending.length := Nat.mod_lt _ hpos
  refine ⟨_, hi, ?_⟩
  unfold emscripten_sleep
  rw [List.getElem?_eq_getElem hi]

theorem nodup_not_mem_eraseIdx {α : Type} (l : List α) (hn : l.Nodup) (i : Nat)
    (hi : i < l.length) : l[i] ∉ l.eraseIdx i := by
  intro hmem
  rw [List.mem_eraseIdx_iff_getElem] at hmem
  obtain ⟨j, hj, hne, heq⟩ := hmem
  exact hne ((List.Nodup.getElem_inj_iff hn).1 heq)

theorem mem_eraseIdx_of_ne {α : Type} (l : List α) (i : Nat) (hi : i < l.length) (x : α)
    (hx : x ∈ l) (hne : x ≠ l[i]) : x ∈ l.eraseIdx i := by
  rw [List.mem_eraseIdx_iff_getElem]
  obtain ⟨j, hj, heq⟩ := List.getElem_of_mem hx
  refine ⟨j, hj, ?_, heq⟩
  intro hji
  subst hji
  exact hne heq.symm


theorem Isolated.slot {ops : List Callback} {w : World} (h : Isolated ops w) {c : Callback}
    (hc : c ∈ ops) : ∃ r, resultOf w.heap c.userdata = some r ∧ r < w.heap.length := by
  obtain ⟨hsome, hlt⟩ := h.2.1 c hc
  obtain ⟨r, hr⟩ := Option.isSome_iff_exists.1 hsome
  exact ⟨r, hr, hlt r (by simp [hr])⟩

/-- One scheduler step keeps the operations isolated: the delivered one
becomes resolved with its own value, the cells of all others are untouched. -/
theorem isolated_step (ops : List Callback) (w : World) (h : Isolated ops w) (i : Nat)
    (hi : i < w.pending.length) :
    Isolated ops
        (deliver w.pending[i]
          { w with pending := w.pending.eraseIdx i, sched := w.sched.tail }) ∧
      ∀ c ∈ ops,
        resultOf
            (deliver w.pending[i]
              { w with pending := w.pending.eraseIdx i, sched := w.sched.tail }).heap
            c.userdata = resultOf w.heap c.userdata := by
  have hdp : w.pending[i] ∈ w.pending := List.getElem_mem hi
  have hd : w.pending[i] ∈ ops := h.2.2.2.2.2.1 _ hdp
  have hnot : w.pending[i] ∉ w.pending.eraseIdx i :=
    nodup_not_mem_eraseIdx _ h.2.2.2.2.1 i hi
  have hkeep : ∀ x ∈ w.pending, x ≠ w.pending[i] → x ∈ w.pending.eraseIdx i :=
    fun x hx hne => mem_eraseIdx_of_ne _ i hi x hx hne
  generalize w.pending[i] = d at hdp hd hnot hkeep ⊢
  obtain ⟨rd, hrd, hrdlt⟩ := h.slot hd
  have hrdne : rd ≠ d.userdata := by
    intro he
    exact h.2.2.2.1 d hd d hd (by rw [hrd, he])
  have hslot_handle : ∀ c ∈ ops, c.userdata ≠ rd := by
    intro c hc he
    exact h.2.2.2.1 d hd c hc (by rw [hrd, he])
  have hres : ∀ c ∈ ops, resultOf (d.run w.heap) c.userdata = resultOf w.heap c.userdata :=
    fun c hc => run_resultOf d w.heap c.userdata rd hrd (hslot_handle c hc)
  obtain ⟨h1, h2, h3, h4, h5, h6, h7⟩ := h
  refine ⟨?_, fun c hc => by rw [deliver_heap]; exact hres c hc⟩
  unfold Isolated
  rw [deliver_heap, deliver_pending]
  simp only [run_length]
  refine ⟨h1, ?_, ?_, ?_, ?_, ?_, ?_⟩
  · intro c hc
    rw [hres c hc]
    exact h2 c hc
  · intro c hc e he hne
    rw [hres c hc, hres e he]
    exact h3 c hc e he hne
  · intro c hc e he
    rw [hres c hc]
    exact h4 c hc e he
  · exact h5.sublist (List.eraseIdx_sublist _ _)
  · intro c hc
    exact h6 c (List.mem_of_mem_eraseIdx hc)
  · intro c hc
    by_cases hcd : c = d
    · subst hcd
      rw [if_neg hnot]
      refine ⟨run_released_handle c w.heap rd hrd, ?_⟩
      intro r hr
      rw [hres c hc, hrd] at hr
      simp only [Option.mem_def, Option.some.injEq] at hr
      subst hr
      exact run_slot c w.heap rd hrd hrdne hrdlt
    · have hune : c.userdata ≠ d.userdata := by
        intro he
        exact hcd (List.inj_on_of_nodup_map h1 hc hd he)
      have hrel : released (d.run w.heap) c.userdata = released w.heap c.userdata :=
        run_released d w.heap c.userdata rd hrd (hslot_handle c hc) hune
      rw [hrel, hres c hc]
      have h7c := h7 c hc
      by_cases hcp : c ∈ w.pending
      · rw [if_pos hcp] at h7c
        rw [if_pos (hkeep c hcp hcd)]
        exact h7c
      · rw [if_neg hcp] at h7c
        rw [if_neg (fun hm => hcp (List.mem_of_mem_eraseIdx hm))]
        refine ⟨h7c.1, ?_⟩
        intro r hr
        have hrne : r ≠ d.userdata := by
          intro he
          simp only [Option.mem_def] at hr
          exact h4 c hc d hd (by rw [hr, he])
        have hrne2 : resultOf w.heap d.userdata ≠ some r := by
          intro he
          simp only [Option.mem_def] at hr
          exact h3 c hc d hd hune (by rw [hr, he])
        rw [run_frame d w.heap r hrne hrne2]
        exact h7c.2 r hr

theorem isolated_released_value {ops : List Callback} {w : World} (h : Isolated ops w)
    {c : Callback} (hc : c ∈ ops) (hrel : released w.heap c.userdata = true) (r : Nat)
    (hr : resultOf w.heap c.userdata = some r) : w.heap[r]? = some c.value := by
  have h7 := h.2.2.2.2.2.2 c hc
  by_cases hcp : c ∈ w.pending
  · rw [if_pos hcp, hrel] at h7
    exact absurd h7 (by simp)
  · rw [if_neg hcp] at h7
    exact h7.2 r hr

/-- The wait loop on the handle of any of the isolated operations ends, for
every choice of the scheduler, with that handle released, all operations
still isolated and no result pointer changed. -/
theorem wait_released_isolated (ops : List Callback) (c : Callback) (hc : c ∈ ops) :
    ∀ (fuel : Nat) (w : World), Isolated ops w → w.pending.length ≤ fuel →
      ∃ w2, wait_released c.userdata fuel w = some w2 ∧ Isolated ops w2 ∧
        released w2.heap c.userdata = true ∧
        ∀ d ∈ ops, resultOf w2.heap d.userdata = resultOf w.heap d.userdata := by
  intro fuel
  induction fuel with
  | zero =>
    intro w h hlen
    have hp : w.pending = [] := List.length_eq_zero.1 (Nat.le_zero.1 hlen)
    have h7 := h.2.2.2.2.2.2 c hc
    rw [hp, if_neg (List.not_mem_nil c)] at h7
    exact ⟨w, by simp [wait_released, h7.1], h, h7.1, fun _ _ => rfl⟩
  | succ fuel ih =>
    intro w h hlen
    by_cases hrel : released w.heap c.userdata = true
    · exact ⟨w, by simp [wait_released, hrel], h, hrel, fun _ _ => rfl⟩
    · have h7 := h.2.2.2.2.2.2 c hc
      have hcp : c ∈ w.pending := by
        by_contra hcp
        rw [if_neg hcp] at h7
        exact hrel h7.1
      have hne : w.pending ≠ [] := List.ne_nil_of_mem hcp
      obtain ⟨i, hi, hsleep⟩ := emscripten_sleep_pending w hne
      obtain ⟨hiso, hres⟩ := isolated_step ops w h i hi
      have hlen2 : (deliver w.pending[i]
          { w with pending := w.pending.eraseIdx i, sched := w.sched.tail }).pending.length
            ≤ fuel := by
        rw [deliver_pending]
        simp only [List.length_eraseIdx, hi, if_true]
        omega
      obtain ⟨w2, hw2, hiso2, hrel2, hres2⟩ := ih _ hiso hlen2
      refine ⟨w2, ?_, hiso2, hrel2, fun d hd => by rw [hres2 d hd, hres d hd]⟩
      simp only [wait_released, hrel, if_false, Bool.false_eq_true]
      rw [hsleep]
      exact hw2


theorem getElem?_append_below {α : Type} (X Y : List α) (a : Nat) (h : a < X.length) :
    (X ++ Y)[a]? = X[a]? :=
  List.getElem?_append_left h

theorem resultOf_append_below (heap ext : List Cell) (a : Nat) (h : a < heap.length) :
    resultOf (heap ++ ext) a = resultOf heap a := by
  unfold resultOf
  rw [getElem?_append_below heap ext a h]

theorem released_append_below (heap ext : List Cell) (a : Nat) (h : a < heap.length) :
    released (heap ++ ext) a = released heap a := by
  unfold released
  rw [getElem?_append_below heap ext a h]

/-- Issuing one more operation with a fresh wait handle and a fresh result
slot keeps the operations isolated. -/
theorem isolated_issue (ops : List Callback) (w : World) (h : Isolated ops w) (own : Callback)
    (c0 : Cell) (tr : List ApiCall) (hown : own.userdata = w.heap.length + 1) :
    Isolated (ops ++ [own])
      { w with
        heap := w.heap ++ [c0, .wait_info ⟨false, w.heap.length⟩]
        pending := w.pending ++ [own]
        trace := tr } := by
  have hlt : ∀ c ∈ ops, c.userdata < w.heap.length := by
    intro c hc
    obtain ⟨r, hr, -⟩ := h.slot hc
    exact resultOf_lt hr
  have hres : ∀ c ∈ ops,
      resultOf (w.heap ++ [c0, .wait_info ⟨false, w.heap.length⟩]) c.userdata =
        resultOf w.heap c.userdata :=
    fun c hc => resultOf_append_below _ _ _ (hlt c hc)
  have hrel : ∀ c ∈ ops,
      released (w.heap ++ [c0, .wait_info ⟨false, w.heap.length⟩]) c.userdata =
        released w.heap c.userdata :=
    fun c hc => released_append_below _ _ _ (hlt c hc)
  have hownres : resultOf (w.heap ++ [c0, .wait_info ⟨false, w.heap.length⟩]) own.userdata =
      some w.heap.length := by
    rw [hown]
    simp only [resultOf, heap_get_fresh1]
  have hownrel : released (w.heap ++ [c0, .wait_info ⟨false, w.heap.length⟩]) own.userdata =
      false := by
    rw [hown]
    exact released_fresh _ _ _ _
  have hownops : own ∉ ops := by
    intro hm
    have := hlt own hm
    omega
  obtain ⟨h1, h2, h3, h4, h5, h6, h7⟩ := h
  have hslotlt : ∀ c ∈ ops, ∀ r, resultOf w.heap c.userdata = some r → r < w.heap.length :=
    fun c hc r hr => (h2 c hc).2 r (by simp [hr])
  unfold Isolated
  simp only [List.mem_append, List.mem_singleton, List.length_append, List.length_cons,
    List.length_nil]
  refine ⟨?_, ?_, ?_, ?_, ?_, ?_, ?_⟩
  · rw [List.map_append, List.nodup_append]
    refine ⟨h1, by simp, ?_⟩
    intro u hu hu2
    simp only [List.map_cons, List.map_nil, List.mem_singleton] at hu2
    obtain ⟨c, hc, hcu⟩ := List.mem_map.1 hu
    have := hlt c hc
    omega
  · rintro c (hc | rfl)
    · rw [hres c hc]
      refine ⟨(h2 c hc).1, fun r hr => ?_⟩
      have := (h2 c hc).2 r hr
      omega
    · rw [hownres]
      refine ⟨rfl, fun r hr => ?_⟩
      simp only [Option.mem_def, Option.some.injEq] at hr
      omega
  · rintro c (hc | rfl) d (hd | rfl) hne
    · rw [hres c hc, hres d hd]
      exact h3 c hc d hd hne
    · rw [hres c hc, hownres]
      intro he
      have := hslotlt c hc _ he
      omega
    · rw [hownres, hres d hd]
      intro he
      have := hslotlt d hd _ he.symm
      omega
    · exact absurd rfl hne
  · rintro c (hc | rfl) d (hd | rfl)
    · rw [hres c hc]
      exact h4 c hc d hd
    · rw [hres c hc]
      intro he
      have := hslotlt c hc _ he
      omega
    · rw [hownres]
      intro he
      have := hlt d hd
      simp only [Option.some.injEq] at he
      omega
    · rw [hownres, hown]
      simp
  · rw [List.nodup_append]
    refine ⟨h5, by simp, ?_⟩
    intro x hx hx2
    simp only [List.mem_singleton] at hx2
    subst hx2
    exact hownops (h6 x hx)
  · rintro c (hc | rfl)
    · exact Or.inl (h6 c hc)
    · exact Or.inr rfl
  · rintro c (hc | rfl)
    · have hne : c ≠ own := fun he => hownops (he ▸ hc)
      rw [hrel c hc, hres c hc]
      have h7c := h7 c hc
      by_cases hcp : c ∈ w.pending
      · rw [if_pos hcp] at h7c
        rw [if_pos (Or.inl hcp)]
        exact h7c
      · rw [if_neg hcp] at h7c
        rw [if_neg (by simp [hcp, hne])]
        refine ⟨h7c.1, fun r hr => ?_⟩
        rw [getElem?_append_below _ _ _ ((h2 c hc).2 r hr)]
        exact h7c.2 r hr
    · rw [if_pos (Or.inr rfl)]
      exact hownrel

/-- Once the newest operation is resolved the older ones are isolated on
their own. -/
theorem isolated_retire (ops : List Callback) (own : Callback) (w : World)
    (h : Isolated (ops ++ [own]) w) (hrel : released w.heap own.userdata = true) :
    Isolated ops w := by
  obtain ⟨h1, h2, h3, h4, h5, h6, h7⟩ := h
  have hin : ∀ c ∈ ops, c ∈ ops ++ [own] := fun c hc => List.mem_append_left _ hc
  refine ⟨?_, fun c hc => h2 c (hin c hc), fun c hc d hd => h3 c (hin c hc) d (hin d hd),
    fun c hc d hd => h4 c (hin c hc) d (hin d hd), h5, ?_, fun c hc => h7 c (hin c hc)⟩
  · rw [List.map_append, List.nodup_append] at h1
    exact h1.1
  · intro c hc
    rcases List.mem_append.1 (h6 c hc) with hco | hco
    · exact hco
    · simp only [List.mem_singleton] at hco
      subst hco
      have := h7 c (by simp)
      rw [if_pos hc, hrel] at this
      exact absurd this (by simp)

/-- The common part of the three wrappers: register a completion for a fresh
handle and slot, then wait. The wait ends, the slot holds the value the
callback was invoked with, and the older operations stay isolated. -/
theorem wait_fresh (ops : List Callback) (w : World) (h : Isolated ops w) (own : Callback)
    (c0 : Cell) (tr : List ApiCall) (hown : own.userdata = w.heap.length + 1) :
    ∃ w3,
      wait_released (w.heap.length + 1) (w.pending ++ [own]).length
        { w with
          heap := w.heap ++ [c0, .wait_info ⟨false, w.heap.length⟩]
          pending := w.pending ++ [own]
          trace := tr } = some w3 ∧
      w3.heap[w.heap.length]? = some own.value ∧ Isolated ops w3 ∧
      ∀ d ∈ ops, resultOf w3.heap d.userdata = resultOf w.heap d.userdata := by
  have hiso := isolated_issue ops w h own c0 tr hown
  obtain ⟨w3, hw3, hiso3, hrel3, hres3⟩ :=
    wait_released_isolated (ops ++ [own]) own (by simp) _ _ hiso (le_refl _)
  rw [hown] at hw3
  refine ⟨w3, hw3, ?_, isolated_retire ops own w3 hiso3 hrel3, ?_⟩
  · apply isolated_released_value hiso3 (by simp : own ∈ ops ++ [own]) hrel3
    rw [hres3 own (by simp), hown]
    simp only [resultOf, heap_get_fresh1]
  · intro d hd
    rw [hres3 d (List.mem_append_left _ hd)]
    obtain ⟨r, hr, -⟩ := h.slot hd
    exact resultOf_append_below _ _ _ (resultOf_lt hr)


theorem wgpu_map_buffer_sync_isolated (ops : List Callback) (w : World) (h : Isolated ops w)
    (buffer mode offset size : Nat) (st : Int) :
    ∃ w2, wgpu_map_buffer_sync buffer mode offset size st w = some (st, w2) ∧
      Isolated ops w2 := by
  obtain ⟨w3, hw3, hval, hiso, -⟩ := wait_fresh ops w h (.map buffer st (w.heap.length + 1))
    .uninit (w.trace ++ [.BufferMapAsync buffer mode offset size (w.heap.length + 1)]) rfl
  refine ⟨w3, ?_, hiso⟩
  unfold wgpu_map_buffer_sync
  simp only [wgpuBufferMapAsync]
  rw [hw3]
  simp only [hval, Callback.value]

theorem wgpu_request_adapter_sync_isolated (ops : List Callback) (w : World)
    (h : Isolated ops w) (inst options : Nat) (reply : wgpu_request_adapter_result) :
    ∃ w2, wgpu_request_adapter_sync inst options reply w = some (reply, w2) ∧
      Isolated ops w2 := by
  obtain ⟨w3, hw3, hval, hiso, -⟩ := wait_fresh ops w h
    (.adapter reply.status reply.adapter reply.message (w.heap.length + 1))
    (.adapter_result ⟨0, NULL, none⟩)
    (w.trace ++ [.InstanceRequestAdapter inst (w.heap.length + 1)]) rfl
  refine ⟨w3, ?_, hiso⟩
  unfold wgpu_request_adapter_sync
  simp only [wgpuInstanceRequestAdapter]
  rw [hw3]
  simp only [hval, Callback.value]

theorem wgpu_request_device_sync_isolated (ops : List Callback) (w : World)
    (h : Isolated ops w) (adapter descriptor : Nat) (reply : wgpu_request_device_result) :
    ∃ w2, wgpu_request_device_sync adapter descriptor reply w = some (reply, w2) ∧
      Isolated ops w2 := by
  obtain ⟨w3, hw3, hval, hiso, -⟩ := wait_fresh ops w h
    (.device reply.status reply.device reply.message (w.heap.length + 1))
    (.device_result ⟨0, NULL, none⟩)
    (w.trace ++ [.AdapterRequestDevice adapter (w.heap.length + 1)]) rfl
  refine ⟨w3, ?_, hiso⟩
  unfold wgpu_request_device_sync
  simp only [wgpuAdapterRequestDevice]
  rw [hw3]
  simp only [hval, Callback.value]

theorem run_resultOf_handle (cb : Callback) (heap : List Cell) :
    resultOf (cb.run heap) cb.userdata = resultOf heap cb.userdata := by
  cases hr : resultOf heap cb.userdata with
  | none =>
    have hrun : cb.run heap = heap := by
      rw [run_eq]
      split
      · rename_i i hi
        simp [resultOf, hi] at hr
      · rfl
    rw [hrun, hr]
  | some r =>
    simp only [resultOf, run_handle cb heap r hr]

/-- C7. Let `ops` be operations that were each issued with a wait handle and a
result slot of their own, in any state of delivery (`Isolated`), with any
order of the pending completions and any choices of the scheduler. Then
(1) the wait loop on the handle of each operation ends and its slot then
holds exactly the value that operation's callback was invoked with, the
operations staying isolated, so that the waits can follow one another in any
order; (2) a further `wgpu_map_buffer_sync` issued in that state returns
exactly the status passed to its own `wgpu_map_sync_callback`, and
`wgpu_request_adapter_sync` and `wgpu_request_device_sync` return exactly the
reply passed to their callbacks; (3) each of the three callbacks leaves every
cell other than the handle it was given and the slot that handle points to
unchanged, and leaves the handle's `result` pointer unchanged. -/
theorem bridge_relay_isolation (ops : List Callback) (w : World) (h : Isolated ops w) :
    (∀ c ∈ ops, ∃ w2 r,
      resultOf w.heap c.userdata = some r ∧
      wait_released c.userdata w.pending.length w = some w2 ∧
      w2.heap[r]? = some c.value ∧ Isolated ops w2) ∧
    (∀ buffer mode offset size st, ∃ w2,
      wgpu_map_buffer_sync buffer mode offset size st w = some (st, w2) ∧ Isolated ops w2) ∧
    (∀ inst options reply, ∃ w2,
      wgpu_request_adapter_sync inst options reply w = some (reply, w2) ∧ Isolated ops w2) ∧
    (∀ adapter descriptor reply, ∃ w2,
      wgpu_request_device_sync adapter descriptor reply w = some (reply, w2) ∧
        Isolated ops w2) ∧
    (∀ (status : Int) (info_v : Nat) (heap : List Cell),
      (∀ a, a ≠ info_v → resultOf heap info_v ≠ some a →
        (wgpu_map_sync_callback status info_v heap)[a]? = heap[a]?) ∧
      resultOf (wgpu_map_sync_callback status info_v heap) info_v = resultOf heap info_v) ∧
    (∀ (status : Int) (adapter : Nat) (message : Option String) (userdata : Nat)
        (heap : List Cell),
      (∀ a, a ≠ userdata → resultOf heap userdata ≠ some a →
        (wgpu_request_adapter_callback status adapter message userdata heap)[a]? = heap[a]?) ∧
      resultOf (wgpu_request_adapter_callback status adapter message userdata heap) userdata
        = resultOf heap userdata) ∧
    (∀ (status : Int) (device : Nat) (message : Option String) (userdata : Nat)
        (heap : List Cell),
      (∀ a, a ≠ userdata → resultOf heap userdata ≠ some a →
        (wgpu_request_device_callback status device message userdata heap)[a]? = heap[a]?) ∧
      resultOf (wgpu_request_device_callback status device message userdata heap) userdata
        = resultOf heap userdata) := by
  refine ⟨?_, wgpu_map_buffer_sync_isolated ops w h, wgpu_request_adapter_sync_isolated ops w h,
    wgpu_request_device_sync_isolated ops w h, ?_, ?_, ?_⟩
  · intro c hc
    obtain ⟨r, hr, -⟩ := h.slot hc
    obtain ⟨w2, hw2, hiso2, hrel2, hres2⟩ :=
      wait_released_isolated ops c hc _ w h (le_refl _)
    exact ⟨w2, r, hr, hw2,
      isolated_released_value hiso2 hc hrel2 r (by rw [hres2 c hc, hr]), hiso2⟩
  · intro status info_v heap
    exact ⟨fun a h1 h2 => run_frame (.map 0 status info_v) heap a h1 h2,
      run_resultOf_handle (.map 0 status info_v) heap⟩
  · intro status adapter message userdata heap
    exact ⟨fun a h1 h2 => run_frame (.adapter status adapter message userdata) heap a h1 h2,
      run_resultOf_handle (.adapter status adapter message userdata) heap⟩
  · intro status device message userdata heap
    exact ⟨fun a h1 h2 => run_frame (.device status device message userdata) heap a h1 h2,
      run_resultOf_handle (.device status device message userdata) heap⟩

/-- Witness of C7: with the two map requests of `World.twoPending` outstanding
(the scheduler delivers the younger first), the wait on the older handle
ends with its own status 5 in its slot, and a third request issued through
`wgpu_map_buffer_sync` returns its own status 9. -/
theorem bridge_relay_isolation_witness :
    (∃ w2 r,
      resultOf World.twoPending.heap 1 = some r ∧
      wait_released 1 World.twoPending.pending.length World.twoPending = some w2 ∧
      w2.heap[r]? = some (.map_status 5) ∧ Isolated World.twoPending.pending w2) ∧
    (∃ w2, wgpu_map_buffer_sync 0 WGPUMapMode_Read 0 4 9 World.twoPending = some (9, w2) ∧
      Isolated World.twoPending.pending w2) :=
  ⟨(bridge_relay_isolation World.twoPending.pending World.twoPending
      ⟨by decide, by decide, by decide, by decide, by decide, by decide, by decide⟩).1
      (.map 0 5 1) (by decide),
    (bridge_relay_isolation World.twoPending.pending World.twoPending
      ⟨by decide, by decide, by decide, by decide, by decide, by decide, by decide⟩).2.1
      0 WGPUMapMode_Read 0 4 9⟩


/-! ## Further properties: acquisition sequence, termination, allocation -/

/-- The acquisition sequence of `backend_context_setup` when nothing else is
outstanding: instance, adapter request, device request, queue, in that order;
a failed adapter request stops before the device request, a failed device
request stops before the queue is fetched, and both end in `futhark_panic`
with the status code and, when there is one, the message. With both requests
successful the context holds the adapter and the device of the replies and
the queue handle, and the function reaches its end without a `return`
statement. -/
theorem backend_context_setup_sequence (ctx : futhark_context)
    (adapter_reply : wgpu_request_adapter_result) (device_reply : wgpu_request_device_result)
    (w : World) (hq : w.pending = []) :
    backend_context_setup ctx adapter_reply device_reply w =
      if adapter_reply.status ≠ WGPURequestAdapterStatus_Success then
        .panics
          (futhark_panic (-1)
            (if adapter_reply.message.isSome then
              "Could not get WebGPU adapter, status: %d\nMessage: %s\n"
            else "Could not get WebGPU adapter, status: %d\n")
            (.int adapter_reply.status :: adapter_reply.message.toList.map PanicArg.str))
          ({ ctx with kernels := NULL, inst := 1 },
            { w with
              sched := w.sched.tail
              heap := w.heap ++
                [.adapter_result adapter_reply, .wait_info ⟨true, w.heap.length⟩]
              trace := w.trace ++
                [.CreateInstance, .InstanceRequestAdapter 1 (w.heap.length + 1)] })
      else if device_reply.status ≠ WGPURequestDeviceStatus_Success then
        .panics
          (futhark_panic (-1)
            (if device_reply.message.isSome then
              "Could not get WebGPU device, status: %d\nMessage: %s\n"
            else "Could not get WebGPU device, status: %d\n")
            (.int device_reply.status :: device_reply.message.toList.map PanicArg.str))
          ({ ctx with kernels := NULL, inst := 1, adapter := adapter_reply.adapter },
            { w with
              sched := w.sched.tail.tail
              heap := w.heap ++
                [.adapter_result adapter_reply, .wait_info ⟨true, w.heap.length⟩,
                  .device_result device_reply, .wait_info ⟨true, w.heap.length + 2⟩]
              trace := w.trace ++
                [.CreateInstance, .InstanceRequestAdapter 1 (w.heap.length + 1),
                  .AdapterRequestDevice adapter_reply.adapter (w.heap.length + 3)] })
      else
        .returns none
          ({ ctx with
              kernels := NULL, inst := 1, adapter := adapter_reply.adapter,
              device := device_reply.device, queue := 1 },
            { w with
              sched := w.sched.tail.tail
              heap := w.heap ++
                [.adapter_result adapter_reply, .wait_info ⟨true, w.heap.length⟩,
                  .device_result device_reply, .wait_info ⟨true, w.heap.length + 2⟩]
              trace := w.trace ++
                [.CreateInstance, .InstanceRequestAdapter 1 (w.heap.length + 1),
                  .AdapterRequestDevice adapter_reply.adapter (w.heap.length + 3),
                  .DeviceGetQueue device_reply.device] }) := by
  unfold backend_context_setup
  simp only [wgpuCreateInstance, World.log]
  rw [wgpu_request_adapter_sync_quiet]
  swap
  · exact hq
  by_cases hs : adapter_reply.status = WGPURequestAdapterStatus_Success
  · simp only [hs, ne_eq, not_true_eq_false, if_false]
    rw [wgpu_request_device_sync_quiet]
    swap
    · exact hq
    by_cases hd : device_reply.status = WGPURequestDeviceStatus_Success
    · simp [hd, wgpuDeviceGetQueue, World.log]
    · simp only [hd, ne_eq, not_false_eq_true, if_true]
      cases hm : device_reply.message <;> simp
  · simp only [hs, ne_eq, not_false_eq_true, if_true]
    cases hm : adapter_reply.message <;> simp


theorem emscripten_sleep_idle (w : World) (hp : w.pending = []) :
    (emscripten_sleep w).pending = [] ∧ (emscripten_sleep w).heap = w.heap := by
  simp [emscripten_sleep, hp]

theorem emscripten_sleep_length (w : World) :
    (emscripten_sleep w).pending.length = w.pending.length - 1 := by
  by_cases hp : w.pending = []
  · rw [(emscripten_sleep_idle w hp).1, hp]; rfl
  · obtain ⟨i, hi, h⟩ := emscripten_sleep_pending w hp
    rw [h, deliver_pending]
    simp only [List.length_eraseIdx, hi, if_true]

/-- Witness of the acquisition sequence: the device request fails with
status 4 and no message, after a successful adapter request. -/
theorem backend_context_setup_sequence_witness :
    backend_context_setup futhark_context.start ⟨0, 7, none⟩ ⟨4, 0, none⟩ World.start =
      .panics (futhark_panic (-1) "Could not get WebGPU device, status: %d\n" [.int 4])
        ({ futhark_context.start with kernels := NULL, inst := 1, adapter := 7 },
          { World.start with
            heap := [.adapter_result ⟨0, 7, none⟩, .wait_info ⟨true, 0⟩,
              .device_result ⟨4, 0, none⟩, .wait_info ⟨true, 2⟩]
            trace := [.CreateInstance, .InstanceRequestAdapter 1 1,
              .AdapterRequestDevice 7 3] }) :=
  backend_context_setup_sequence futhark_context.start ⟨0, 7, none⟩ ⟨4, 0, none⟩ World.start
    rfl

/-- The reading of `none` as a loop that spins forever: when the wait loop has
used up its fuel (one sleep per completion pending at its start) without
seeing the flag, the flag is still clear after any number of further
sleeps. -/
theorem wait_released_none_spins (info : Nat) :
    ∀ (fuel : Nat) (w : World), w.pending.length ≤ fuel → wait_released info fuel w = none →
      ∀ k, released (emscripten_sleep^[k] w).heap info = false := by
  intro fuel
  induction fuel with
  | zero =>
    intro w hlen hnone k
    have hp : w.pending = [] := List.length_eq_zero.1 (Nat.le_zero.1 hlen)
    have hrel : released w.heap info = false := by
      by_contra hne
      simp only [Bool.not_eq_false] at hne
      simp [wait_released, hne] at hnone
    have hk : ∀ k, (emscripten_sleep^[k] w).pending = [] ∧
        (emscripten_sleep^[k] w).heap = w.heap := by
      intro k
      induction k with
      | zero => exact ⟨hp, rfl⟩
      | succ k ih =>
        rw [Function.iterate_succ_apply']
        obtain ⟨h1, h2⟩ := emscripten_sleep_idle _ ih.1
        exact ⟨h1, by rw [h2, ih.2]⟩
    rw [(hk k).2]
    exact hrel
  | succ fuel ih =>
    intro w hlen hnone k
    have hrel : released w.heap info = false := by
      by_contra hne
      simp only [Bool.not_eq_false] at hne
      simp [wait_released, hne] at hnone
    simp only [wait_released, hrel, Bool.false_eq_true, if_false] at hnone
    cases k with
    | zero => exact hrel
    | succ k =>
      rw [Function.iterate_succ_apply]
      apply ih _ _ hnone
      rw [emscripten_sleep_length]
      omega

/-- Witness: a handle that no completion will release, in the initial machine;
the flag is clear after three more sleeps. -/
theorem wait_released_none_spins_witness :
    released (emscripten_sleep^[3] World.start).heap 0 = false :=
  wait_released_none_spins 0 0 World.start (le_refl _) rfl 3

/-- The sync flag: for every value of the other arguments `memcpy_host2gpu`
and `memcpy_gpu2host` do the same with `sync = true` as with
`sync = false`. -/
theorem sync_flag_has_no_effect (ctx : futhark_context) (buf : gpu_mem)
    (dst_offset src_offset nbytes : Int) (host : List Byte) (offset : Nat) (st : Int)
    (w : World) :
    memcpy_host2gpu ctx true buf dst_offset host src_offset nbytes w =
        memcpy_host2gpu ctx false buf dst_offset host src_offset nbytes w ∧
      memcpy_gpu2host ctx true host dst_offset buf src_offset nbytes offset st w =
        memcpy_gpu2host ctx false host dst_offset buf src_offset nbytes offset st w :=
  ⟨rfl, rfl⟩

/-- Allocation and release: `gpu_alloc_actual` returns `FUTHARK_SUCCESS`, its
handle is the next free one and names a live, unmapped, zero-filled buffer of
exactly `size` bytes with usage `CopySrc | CopyDst | Storage`, and no other
buffer changes; `gpu_free_actual` returns `FUTHARK_SUCCESS` and the buffer it
was given is not live afterwards. -/
theorem alloc_and_free (ctx : futhark_context) (size : Nat) (mem : gpu_mem) (w : World) :
    gpu_alloc_actual ctx size w =
        (some FUTHARK_SUCCESS, w.buffers.length,
          { w with
            buffers := w.buffers ++
              [⟨none,
                WGPUBufferUsage_CopySrc ||| WGPUBufferUsage_CopyDst ||| WGPUBufferUsage_Storage,
                List.replicate size 0, false, false⟩]
            trace := w.trace ++
              [.DeviceCreateBuffer
                ⟨none, size,
                  WGPUBufferUsage_CopySrc ||| WGPUBufferUsage_CopyDst |||
                    WGPUBufferUsage_Storage⟩
                w.buffers.length] }) ∧
      (gpu_free_actual ctx mem w).1 = some FUTHARK_SUCCESS ∧
      live (gpu_free_actual ctx mem w).2.buffers mem = false := by
  refine ⟨rfl, rfl, ?_⟩
  simp only [gpu_free_actual, wgpuBufferDestroy, live]
  cases hb : w.buffers[mem]? with
  | none => simp [hb]
  | some buf =>
    have hlt : mem < w.buffers.length := (List.getElem?_eq_some.1 hb).1
    simp [List.getElem?_set_self hlt]

/-- Termination when nothing else is outstanding: every operation of the layer
called with no completion pending ends (it returns or it panics, it does not
hang) and leaves no completion pending. -/
theorem quiet_calls_terminate (ctx : futhark_context) (w : World) (hq : w.pending = []) :
    (∀ adapter_reply device_reply,
      ∃ s, s.2.pending = [] ∧
        ((∃ v, backend_context_setup ctx adapter_reply device_reply w = .returns v s) ∨
          (∃ p, backend_context_setup ctx adapter_reply device_reply w = .panics p s))) ∧
    (∀ dst src offset size st,
      ∃ s, s.1.pending = [] ∧
        ((∃ v, gpu_scalar_from_device ctx dst src offset size st w = .returns v s) ∨
          (∃ p, gpu_scalar_from_device ctx dst src offset size st w = .panics p s))) ∧
    (∀ sync dst dst_offset src src_offset nbytes offset st,
      ∃ s, s.1.pending = [] ∧
        ((∃ v, memcpy_gpu2host ctx sync dst dst_offset src src_offset nbytes offset st w
            = .returns v s) ∨
          (∃ p, memcpy_gpu2host ctx sync dst dst_offset src src_offset nbytes offset st w
            = .panics p s))) ∧
    (∀ dst offset size src, (gpu_scalar_to_device ctx dst offset size src w).2.pending = []) ∧
    (∀ dst dst_offset src src_offset nbytes,
      (gpu_memcpy ctx dst dst_offset src src_offset nbytes w).2.pending = []) ∧
    (∀ sync dst dst_offset src src_offset nbytes,
      (memcpy_host2gpu ctx sync dst dst_offset src src_offset nbytes w).2.pending = []) ∧
    (∀ size, (gpu_alloc_actual ctx size w).2.2.pending = []) ∧
    (∀ mem, (gpu_free_actual ctx mem w).2.pending = []) := by
  have hscalar : ∀ dst src offset size st,
      ∃ s : World × List Byte, s.1.pending = [] ∧
        ((∃ v, gpu_scalar_from_device ctx dst src offset size st w = .returns v s) ∨
          (∃ p, gpu_scalar_from_device ctx dst src offset size st w = .panics p s)) := by
    intro dst src offset size st
    obtain ⟨X, -, -, h⟩ := gpu_scalar_from_device_quiet ctx dst src offset size st w hq
    by_cases hst : st = WGPUBufferMapAsyncStatus_Success
    · rw [if_pos hst] at h
      exact ⟨_, rfl, Or.inl ⟨_, h⟩⟩
    · rw [if_neg hst] at h
      exact ⟨_, rfl, Or.inr ⟨_, h⟩⟩
  refine ⟨?_, hscalar, ?_, ?_, ?_, ?_, ?_, ?_⟩
  · intro adapter_reply device_reply
    unfold backend_context_setup
    simp only [wgpuCreateInstance, World.log]
    rw [wgpu_request_adapter_sync_quiet]
    swap
    · exact hq
    by_cases hs : adapter_reply.status = WGPURequestAdapterStatus_Success
    · simp only [hs, ne_eq, not_true_eq_false, if_false]
      rw [wgpu_request_device_sync_quiet]
      swap
      · exact hq
      by_cases hd : device_reply.status = WGPURequestDeviceStatus_Success
      · simp only [hd, ne_eq, not_true_eq_false, if_false]
        exact ⟨_, by simpa [wgpuDeviceGetQueue, World.log] using hq, Or.inl ⟨_, rfl⟩⟩
      · simp only [hd, ne_eq, not_false_eq_true, if_true]
        cases hm : device_reply.message
        · exact ⟨_, by simpa using hq, Or.inr ⟨_, rfl⟩⟩
        · exact ⟨_, by simpa using hq, Or.inr ⟨_, rfl⟩⟩
    · simp only [hs, ne_eq, not_false_eq_true, if_true]
      cases hm : adapter_reply.message
      · exact ⟨_, by simpa using hq, Or.inr ⟨_, rfl⟩⟩
      · exact ⟨_, by simpa using hq, Or.inr ⟨_, rfl⟩⟩
  · intro sync dst dst_offset src src_offset nbytes offset st
    by_cases hn : 0 < nbytes
    · rw [memcpy_gpu2host_eq_scalar _ _ _ _ _ _ _ _ _ _ hn]
      obtain ⟨s, hs, h | h⟩ := hscalar dst src offset (to_uint64 nbytes) st
      · obtain ⟨v, hv⟩ := h
        rw [hv]
        exact ⟨s, hs, Or.inl ⟨v, rfl⟩⟩
      · obtain ⟨p, hp⟩ := h
        rw [hp]
        exact ⟨s, hs, Or.inr ⟨_, rfl⟩⟩
    · refine ⟨(w, dst), hq, Or.inl ⟨some FUTHARK_SUCCESS, ?_⟩⟩
      simp [memcpy_gpu2host, not_lt.1 hn]
  · intro dst offset size src
    simpa [gpu_scalar_to_device, wgpuQueueWriteBuffer] using hq
  · intro dst dst_offset src src_offset nbytes
    simpa [gpu_memcpy, wgpuQueueSubmit] using hq
  · intro sync dst dst_offset src src_offset nbytes
    unfold memcpy_host2gpu
    split_ifs
    · exact hq
    · simpa [wgpuQueueWriteBuffer] using hq
  · intro size
    simpa [gpu_alloc_actual, wgpuDeviceCreateBuffer] using hq
  · intro mem
    simpa [gpu_free_actual, wgpuBufferDestroy] using hq

/-- Witness: a scalar read of two bytes from the one-buffer machine whose
mapping fails with status 3 ends, in a state with nothing pending. -/
theorem quiet_calls_terminate_witness :
    ∃ s : World × List Byte, s.1.pending = [] ∧
      ((∃ v, gpu_scalar_from_device futhark_context.start [9, 9] 0 0 2 3 World.oneBuffer
          = .returns v s) ∨
        (∃ p, gpu_scalar_from_device futhark_context.start [9, 9] 0 0 2 3 World.oneBuffer
          = .panics p s)) :=
  (quiet_calls_terminate futhark_context.start World.oneBuffer rfl).2.1 [9, 9] 0 0 2 3


/-! ## Further properties: return values, host bytes, offsets -/

/-- Return values that are there: `gpu_memcpy`, `gpu_alloc_actual` and
`gpu_free_actual` return `FUTHARK_SUCCESS` on every call, `memcpy_host2gpu`
when `nbytes <= 0`, and `gpu_scalar_from_device` and `memcpy_gpu2host`
whenever they return at all. -/
theorem returned_values_are_success (ctx : futhark_context) (w : World) :
    (∀ dst dst_offset src src_offset nbytes,
      (gpu_memcpy ctx dst dst_offset src src_offset nbytes w).1 = some FUTHARK_SUCCESS) ∧
    (∀ size, (gpu_alloc_actual ctx size w).1 = some FUTHARK_SUCCESS) ∧
    (∀ mem, (gpu_free_actual ctx mem w).1 = some FUTHARK_SUCCESS) ∧
    (∀ sync dst dst_offset src src_offset nbytes, nbytes ≤ 0 →
      (memcpy_host2gpu ctx sync dst dst_offset src src_offset nbytes w).1
        = some FUTHARK_SUCCESS) ∧
    (∀ dst src offset size st v s,
      gpu_scalar_from_device ctx dst src offset size st w = .returns v s →
        v = some FUTHARK_SUCCESS) ∧
    (∀ sync dst dst_offset src src_offset nbytes offset st v s,
      memcpy_gpu2host ctx sync dst dst_offset src src_offset nbytes offset st w
          = .returns v s →
        v = some FUTHARK_SUCCESS) := by
  have hscalar : ∀ dst src offset size st v s,
      gpu_scalar_from_device ctx dst src offset size st w = .returns v s →
        v = some FUTHARK_SUCCESS := by
    intro dst src offset size st v s h
    unfold gpu_scalar_from_device at h
    simp only [] at h
    split at h
    · simp at h
    · split_ifs at h
      simp only [Outcome.returns.injEq] at h
      exact h.1.symm
  refine ⟨fun _ _ _ _ _ => rfl, fun _ => rfl, fun _ => rfl, ?_, hscalar, ?_⟩
  · intro sync dst dst_offset src src_offset nbytes hn
    simp [memcpy_host2gpu, hn]
  · intro sync dst dst_offset src src_offset nbytes offset st v s h
    by_cases hn : 0 < nbytes
    · rw [memcpy_gpu2host_eq_scalar _ _ _ _ _ _ _ _ _ _ hn] at h
      cases hg : gpu_scalar_from_device ctx dst src offset (to_uint64 nbytes) st w with
      | returns v2 s2 =>
        rw [hg] at h
        simp only [Outcome.returns.injEq] at h
        rw [← h.1]
        exact hscalar _ _ _ _ _ _ _ hg
      | panics p s2 => rw [hg] at h; simp at h
      | hangs => rw [hg] at h; simp at h
    · simp only [memcpy_gpu2host, not_lt.1 hn, if_true, Outcome.returns.injEq] at h
      exact h.1.symm

/-- Outcome of a successful bulk readback: with no other completion outstanding and
the mapping successful, `memcpy_gpu2host` with `0 < nbytes`, an `int64_t`,
replaces the first `nbytes` bytes of the host array by the `nbytes` bytes of
the staging buffer and keeps every byte from index `nbytes` on, whatever
`dst_offset` is. -/
theorem memcpy_gpu2host_quiet_success (ctx : futhark_context) (sync : Bool) (dst : List Byte)
    (dst_offset : Int) (src : gpu_mem) (src_offset nbytes : Int) (offset : Nat) (w : World)
    (hn : 0 < nbytes) (h64 : nbytes < 2 ^ 63) (hq : w.pending = []) :
    ∃ w2,
      memcpy_gpu2host ctx sync dst dst_offset src src_offset nbytes offset
          WGPUBufferMapAsyncStatus_Success w =
        .returns (some FUTHARK_SUCCESS)
          (w2, readbackData w src offset nbytes.toNat ++ dst.drop nbytes.toNat) ∧
      (readbackData w src offset nbytes.toNat).length = nbytes.toNat := by
  rw [memcpy_gpu2host_eq_scalar _ _ _ _ _ _ _ _ _ _ hn,
    to_uint64_of_range nbytes (le_of_lt hn) h64]
  obtain ⟨X, -, hD, h⟩ := gpu_scalar_from_device_quiet ctx dst src offset nbytes.toNat
    WGPUBufferMapAsyncStatus_Success w hq
  rw [h, if_pos rfl]
  have hr : readRange (readbackData w src offset nbytes.toNat) 0 nbytes.toNat =
      readbackData w src offset nbytes.toNat := by
    generalize readbackData w src offset nbytes.toNat = D at hD
    rw [← hD]
    exact readRange_all D
  have hm : memcpy dst (readbackData w src offset nbytes.toNat) nbytes.toNat =
      readbackData w src offset nbytes.toNat ++ dst.drop nbytes.toNat := by
    generalize readbackData w src offset nbytes.toNat = D at hD
    unfold memcpy
    rw [← hD, List.take_length]
  rw [hr, hm]
  exact ⟨_, rfl, hD⟩

/-- The host bytes a readback writes: with no other completion outstanding and
the mapping successful, `memcpy_gpu2host` with `0 < nbytes`, an `int64_t`,
replaces the first `nbytes` bytes of the host array by the `nbytes` bytes of
the staging buffer and keeps every byte from index `nbytes` on, whatever
`dst_offset` is. -/
theorem memcpy_gpu2host_host_bytes (ctx : futhark_context) (sync : Bool) (dst : List Byte)
    (dst_offset : Int) (src : gpu_mem) (src_offset nbytes : Int) (offset : Nat) (w : World)
    (hn : 0 < nbytes) (h64 : nbytes < 2 ^ 63) (hq : w.pending = []) :
    ∃ w2,
      memcpy_gpu2host ctx sync dst dst_offset src src_offset nbytes offset
          WGPUBufferMapAsyncStatus_Success w =
        .returns (some FUTHARK_SUCCESS)
          (w2, readbackData w src offset nbytes.toNat ++ dst.drop nbytes.toNat) ∧
      (readbackData w src offset nbytes.toNat).length = nbytes.toNat :=
  memcpy_gpu2host_quiet_success ctx sync dst dst_offset src src_offset nbytes offset w hn h64 hq

/-- Witness: two bytes read at `dst_offset = 2` into a four-byte host array. -/
theorem memcpy_gpu2host_host_bytes_witness :
    ∃ w2,
      memcpy_gpu2host futhark_context.start true [0, 0, 0, 0] 2 0 0 2 0
          WGPUBufferMapAsyncStatus_Success World.oneBuffer =
        .returns (some FUTHARK_SUCCESS)
          (w2, readbackData World.oneBuffer 0 0 (2 : Int).toNat ++
            ([0, 0, 0, 0] : List Byte).drop (2 : Int).toNat) ∧
      (readbackData World.oneBuffer 0 0 (2 : Int).toNat).length = (2 : Int).toNat :=
  memcpy_gpu2host_host_bytes futhark_context.start true [0, 0, 0, 0] 2 0 0 2 0
    World.oneBuffer (by decide) (by norm_num) rfl


theorem live_append_left (X : List Buffer) (e : Buffer) (b : Nat) (h : live X b = true) :
    live (X ++ [e]) b = true := by
  have hlt := live_lt h
  unfold live at h ⊢
  rw [List.getElem?_append_left hlt]
  exact h

theorem bufferSize_append_left (X : List Buffer) (e : Buffer) (b : Nat) (h : b < X.length) :
    bufferSize (X ++ [e]) b = bufferSize X b := by
  unfold bufferSize
  rw [List.getElem?_append_left h]

theorem offset_round_trip_data (X : List Buffer) (q : List QueueCmd) (stg : Buffer)
    (bytes : List Byte) (m d : Nat) (hm : m < X.length)
    (hsz : d + bytes.length ≤ bufferSize X m) (hstg : stg.data.length = bytes.length) :
    bufferData
      ((q ++ [QueueCmd.writeBuffer m d bytes] ++
          [QueueCmd.copyBufferToBuffer m d X.length 0 bytes.length]).foldl execCmd
        (X ++ [stg])) X.length = bytes := by
  rw [List.foldl_append, List.foldl_append]
  simp only [List.foldl_cons, List.foldl_nil]
  have hsh0 := foldl_execCmd_shape q (X ++ [stg])
  generalize List.foldl execCmd (X ++ [stg]) q = L0 at hsh0 ⊢
  have hlen0 : L0.length = X.length + 1 := by
    rw [shape_length hsh0]; simp
  have hsz0 : bufferSize L0 m = bufferSize X m := by
    rw [shape_bufferSize hsh0, bufferSize_append_left _ _ _ hm]
  have hsz1 : bufferSize L0 X.length = bytes.length := by
    rw [shape_bufferSize hsh0]
    simp only [bufferSize, getElem?_append_single _ _ _ rfl, hstg]
  have hw := bufferData_exec_write L0 m d bytes (by omega) (by omega)
  have hsh1 := execCmd_shape L0 (.writeBuffer m d bytes)
  generalize execCmd L0 (.writeBuffer m d bytes) = L1 at hsh1 hw ⊢
  have hlen1 : L1.length = X.length + 1 := by
    rw [shape_length hsh1]; exact hlen0
  rw [bufferData_exec_copy L1 m d X.length 0 bytes.length (by omega) (by omega)
    (by rw [shape_bufferSize hsh1, hsz0]; exact hsz)
    (by rw [shape_bufferSize hsh1, hsz1]; omega)]
  rw [hw, readRange_writeRange _ _ _ (by rw [bufferData_length, hsz0]; exact hsz),
    writeRange_all]
  rw [bufferData_length, shape_bufferSize hsh1, hsz1]

/-- Round trip at offsets, with no other completion outstanding and the mapping
successful: after `memcpy_host2gpu` of the `n` bytes of `src` from index `s`
to offset `d` of a live buffer (ranges in bounds, all three numbers
`int64_t` values, `0 < n`), `memcpy_gpu2host` of `n` bytes whose copy command
reads at `offset = d` returns `FUTHARK_SUCCESS` with exactly those bytes at
the start of the host array and the host bytes from index `n` on unchanged,
whatever `dst_offset` and `src_offset` it is given. -/
theorem offset_round_trip (ctx : futhark_context) (sync_up sync_down : Bool) (mem : gpu_mem)
    (src host : List Byte) (s d n : Nat) (dst_offset src_offset : Int) (w : World)
    (hn : 0 < n) (h64 : s < 2 ^ 63 ∧ d < 2 ^ 63 ∧ n < 2 ^ 63)
    (hlive : live w.buffers mem = true) (hd : d + n ≤ bufferSize w.buffers mem)
    (hs : s + n ≤ src.length) (hq : w.pending = []) :
    ∃ w2,
      memcpy_gpu2host ctx sync_down host dst_offset mem src_offset n d
          WGPUBufferMapAsyncStatus_Success (memcpy_host2gpu ctx sync_up mem d src s n w).2 =
        .returns (some FUTHARK_SUCCESS) (w2, readRange src s n ++ host.drop n) := by
  obtain ⟨h1, h2, h3⟩ := h64
  have hnI : (0 : Int) < (n : Int) := by exact_mod_cast hn
  have hrl : (readRange src s n).length = n := readRange_length src s n hs
  have hvalid : validCmd w.buffers (.writeBuffer mem d (readRange src s n)) = true := by
    simp [validCmd, hlive, hrl, hd]
  have hup : (memcpy_host2gpu ctx sync_up mem d src s n w).2 =
      { w with
        queue := w.queue ++ [.writeBuffer mem d (readRange src s n)]
        trace := w.trace ++ [.QueueWriteBuffer mem d (readRange src s n)] } := by
    simp only [memcpy_host2gpu, not_le.2 hnI, if_false, wgpuQueueWriteBuffer,
      to_uint64_natCast _ h1, to_uint64_natCast _ h2, to_uint64_natCast _ h3, hvalid, if_true]
  rw [hup]
  obtain ⟨w2, hcall, -⟩ := memcpy_gpu2host_quiet_success ctx sync_down host dst_offset mem
    src_offset
    n d
    { w with
      queue := w.queue ++ [.writeBuffer mem d (readRange src s n)]
      trace := w.trace ++ [.QueueWriteBuffer mem d (readRange src s n)] }
    hnI (by exact_mod_cast h3) hq
  refine ⟨w2, ?_⟩
  rw [hcall]
  simp only [Int.toNat_ofNat]
  have hdata : readbackData
      { w with
        queue := w.queue ++ [.writeBuffer mem d (readRange src s n)]
        trace := w.trace ++ [.QueueWriteBuffer mem d (readRange src s n)] } mem d n =
      readRange src s n := by
    unfold readbackData
    simp only [wgpuQueueSubmit, wgpuDeviceCreateBuffer, World.flush, List.flatten_cons,
      List.flatten_nil, List.append_nil, List.all_cons, List.all_nil, Bool.and_true]
    have hv2 : validCmd
        (w.buffers ++
          [⟨some "tmp_readback", WGPUBufferUsage_MapRead ||| WGPUBufferUsage_CopyDst,
            List.replicate n 0, false, false⟩])
        (.copyBufferToBuffer mem d w.buffers.length 0 n) = true := by
      have hl2 : live
          (w.buffers ++
            [⟨some "tmp_readback", WGPUBufferUsage_MapRead ||| WGPUBufferUsage_CopyDst,
              List.replicate n 0, false, false⟩]) w.buffers.length = true := by
        simp only [live, getElem?_append_single _ _ _ rfl]
        rfl
      have hs2 : bufferSize
          (w.buffers ++
            [⟨some "tmp_readback", WGPUBufferUsage_MapRead ||| WGPUBufferUsage_CopyDst,
              List.replicate n 0, false, false⟩]) w.buffers.length = n := by
        simp only [bufferSize, getElem?_append_single _ _ _ rfl, List.length_replicate]
      simp only [validCmd, live_append_left _ _ _ hlive,
        bufferSize_append_left _ _ _ (live_lt hlive), hl2, hs2]
      simp [hd]
    rw [if_pos hv2]
    have := offset_round_trip_data w.buffers w.queue
      ⟨some "tmp_readback", WGPUBufferUsage_MapRead ||| WGPUBufferUsage_CopyDst,
        List.replicate n 0, false, false⟩
      (readRange src s n) mem d (live_lt hlive) (by rw [hrl]; exact hd) (by simp [hrl])
    rw [hrl] at this
    exact this
  rw [hdata]

/-- Witness: bytes 1 and 2 of a source holding 5, 6, 7 stored at offset 1 of the
second buffer of `World.twoBuffers` and read back. -/
theorem offset_round_trip_witness :
    ∃ w2,
      memcpy_gpu2host futhark_context.start true [9, 9, 9] 1 1 0 (2 : Nat) 1
          WGPUBufferMapAsyncStatus_Success
          (memcpy_host2gpu futhark_context.start true 1 (1 : Nat) [5, 6, 7] (1 : Nat) (2 : Nat)
            World.twoBuffers).2 =
        .returns (some FUTHARK_SUCCESS)
          (w2, readRange [5, 6, 7] 1 2 ++ ([9, 9, 9] : List Byte).drop 2) :=
  offset_round_trip futhark_context.start true true 1 [5, 6, 7] [9, 9, 9] 1 1 2 1 0
    World.twoBuffers (by decide) (by norm_num) (by decide) (by decide) (by decide) rfl


end WebGPUBackend
